import Mathlib

/-!
# Sweep controller of `vac` (src/app/src/main.c)

A shallow embedding of `main.c`: the worker thread (staged acquisition, sweep loop, shutdown
action, reverse-order teardown), the commander thread, the run flag, `get_time` and `gpib_read`.

* Calls into the outside world (GPIB library, stdio, clock) are recorded as events `Ev`; their
  results are supplied by an environment record.
* C `double` values are modelled exactly as dyadic numbers `m * 2^e` with round-to-nearest-even
  to a 53-bit significand after every arithmetic operation (IEEE-754 binary64 evaluated in
  double precision; the exponent range is not bounded, no value of this program leaves the
  normal range).
* C `int`/`long` values are `Int`; `FILE *` is a `Nat` with `0` for `NULL`.
* A call with undefined behaviour ends the trace with the event `Ev.undefined`.
-/

namespace Vac

/-! ## binary64 arithmetic -/

/-- A `double`: the number `m * 2^e`. -/
structure Dbl where
  m : Int
  e : Int
  deriving DecidableEq, Repr

/-- Quotient `a / b` rounded to the nearest integer, ties to even. -/
def rneDiv (a b : Nat) : Nat :=
  let q := a / b
  let r := a % b
  if 2 * r < b then q else if b < 2 * r then q + 1 else if q % 2 = 0 then q else q + 1

/-- Floor of the binary logarithm of `n` (for `1 ≤ n`), by repeated halving;
    the first argument bounds the number of halvings. -/
def ilog2 : Nat → Nat → Nat
  | 0, _ => 0
  | f + 1, n => if n < 2 then 0 else ilog2 f (n / 2) + 1

/-- Floor of the binary logarithm of the fraction `a / b` (for `1 ≤ a`, `1 ≤ b`). -/
def fexp (a b : Nat) : Int :=
  let e0 : Int := (ilog2 a a : Int) - (ilog2 b b : Int)
  if (0 ≤ e0 ∧ a < b * 2 ^ e0.toNat) ∨ (e0 < 0 ∧ a * 2 ^ (-e0).toNat < b) then e0 - 1 else e0

/-- The `double` nearest to `(a / b) * 2^s` (ties to even), `1 ≤ b`. -/
def Dbl.round (a : Int) (b : Nat) (s : Int) : Dbl :=
  if a = 0 then ⟨0, 0⟩ else
  let n := a.natAbs
  let e := fexp n b - 52
  let mant := if 0 ≤ e then rneDiv n (b * 2 ^ e.toNat) else rneDiv (n * 2 ^ (-e).toNat) b
  ⟨Int.sign a * (mant : Int), e + s⟩

/-- Conversion of an integer to `double`. -/
def Dbl.ofInt (i : Int) : Dbl := Dbl.round i 1 0

/-- Floating-point product. -/
def Dbl.mul (x y : Dbl) : Dbl := Dbl.round (x.m * y.m) 1 (x.e + y.e)

/-- Floating-point sum. -/
def Dbl.add (x y : Dbl) : Dbl :=
  let e := min x.e y.e
  Dbl.round (x.m * 2 ^ (x.e - e).toNat + y.m * 2 ^ (y.e - e).toNat) 1 e

/-- Floating-point quotient (`y` nonzero). -/
def Dbl.div (x y : Dbl) : Dbl :=
  Dbl.round (Int.sign y.m * x.m) y.m.natAbs (x.e - y.e)

/-- The comparison `x < y` of two doubles. -/
def Dbl.lt (x y : Dbl) : Prop :=
  x.m * 2 ^ (x.e - min x.e y.e).toNat < y.m * 2 ^ (y.e - min x.e y.e).toNat

instance (x y : Dbl) : Decidable (Dbl.lt x y) := by
  unfold Dbl.lt; exact inferInstance

/-- The rational value of a double. -/
def Dbl.toRat (x : Dbl) : ℚ := (x.m : ℚ) * (2 : ℚ) ^ x.e

/-- The literal `0.0`. -/
def Dbl.zero : Dbl := ⟨0, 0⟩

/-- The decimal literal `num / den` as the compiler reads it. -/
def Dbl.lit (num den : Nat) : Dbl := Dbl.round num den 0

/-- Number `v` (nonnegative) printed with `%.3lf`: the nearest multiple of 1/1000. -/
def Dbl.milli (v : Dbl) : Nat :=
  if 0 ≤ v.e then v.m.natAbs * 2 ^ v.e.toNat * 1000
  else rneDiv (v.m.natAbs * 1000) (2 ^ (-v.e).toNat)

/-- Three decimal digits of `n % 1000`. -/
def pad3 (n : Nat) : String :=
  String.mk [Nat.digitChar (n / 100 % 10), Nat.digitChar (n / 10 % 10), Nat.digitChar (n % 10)]

/-- Text of `k / 1000` with three decimals. -/
def fmtMilli (k : Nat) : String := toString (k / 1000) ++ "." ++ pad3 k

/-- Output of `%.3lf` for a nonnegative double. -/
def fmt3 (v : Dbl) : String := fmtMilli v.milli

/-! ## configuration (`#define`s) -/

def PPS_GPIB_NAME : String := "AKIP-1142/3G"
def VM_GPIB_NAME : String := "AKIP-V7-78/1"
def STEP_DELAY : Nat := 1000000
def VOLTAGE_MAX : Dbl := Dbl.lit 10 1
def VOLTAGE_STEP : Dbl := Dbl.lit 1 10

def EOF : Int := -1

/-! ## events and environment -/

/-- A `struct timeval`. -/
structure Timeval where
  tv_sec : Int
  tv_usec : Int
  deriving DecidableEq, Repr

/-- Calls made by the threads, with the values passed and the values returned. -/
inductive Ev
  | ibfind (name : String) (r : Int)
  | ibwrt (fd : Int) (cmd : String) (sta : Int)
  | ibrd (fd : Int) (len : Int) (sta : Int) (ibcnt : Int)
  | ibclr (fd : Int)
  | ibloc (fd : Int)
  | fopen (path : String) (fp : Nat)
  | ferror (fp : Nat)
  | setlinebuf (fp : Nat)
  | fprintf_header (fp : Nat) (r : Int)
  | fprintf_row (fp : Nat) (index : Int) (time : Dbl) (pv pc vm : Option Dbl) (r : Int)
  | popen (cmd : List Nat) (gp : Nat)
  | fprintf_axes (gp : Nat) (r : Int)
  | fprintf_plot (gp : Nat) (index : Int) (time : Dbl) (r : Int)
  | pclose (gp : Nat) (r : Int)
  | fclose (fp : Nat) (r : Int)
  | usleep (us : Nat)
  | sleep (s : Nat)
  | gettimeofday (r : Option Timeval)
  | get_run (v : Int)
  | set_run (v : Int)
  | fgets (r : Option String)
  | printf (text : String)
  | eprintf (text : String)
  /-- the call recorded just before has undefined behaviour in C (a null `FILE *` passed to
      `ferror`); what the thread does after it is not modelled, the trace ends here -/
  | undefined
  deriving DecidableEq, Repr

/-- Outcome of one `ibrd` call: the returned status and the bytes stored in the buffer
    (`ibcnt` is their number). -/
structure Ibrd where
  sta : Int
  data : List Nat

/-- Everything the outside world decides during one run of `worker`. -/
structure Env where
  /-- global `dir_str`, set by `main` -/
  dir_str : String
  /-- global `filename_vac`, set by `main` -/
  filename_vac : String
  /-- indeterminate initial contents of the local `buf[100]` -/
  buf0 : List Nat
  /-- result of `ibfind(PPS_GPIB_NAME)` -/
  ibfind_pps : Int
  /-- result of `ibfind(VM_GPIB_NAME)` -/
  ibfind_vm : Int
  /-- status returned by `ibwrt`: first index 0 outside the loop and `vac_index + 1` inside,
      second index the number of the call there -/
  ibwrt_sta : Nat → Nat → Int
  /-- result of `fopen(filename_vac, "w+")`, 0 is `NULL` -/
  fopen_vac : Nat
  /-- result of the header `fprintf` -/
  header_r : Int
  /-- result of `popen`, 0 is `NULL` -/
  popen_gp : Nat
  /-- result of the axis setup `fprintf` -/
  axes_r : Int
  /-- value of `get_run()` at the loop test with the given `vac_index` -/
  run : Nat → Int
  /-- result of `gettimeofday` in the step with the given `vac_index`, `none` for -1 -/
  clock : Nat → Option Timeval
  /-- outcome of the `ibrd` of query number 0, 1, 2 in the step with the given `vac_index` -/
  ibrd_res : Nat → Nat → Ibrd
  /-- libc `atof` on the bytes of a C string -/
  atof : List Nat → Dbl
  /-- result of the row `fprintf` to the log file -/
  row_r : Nat → Int
  /-- result of the `fprintf` to the plot pipe -/
  plot_r : Nat → Int
  /-- result of `pclose` -/
  pclose_r : Int
  /-- result of `fclose` -/
  fclose_r : Int

/-! ## utils -/

/-- Bytes of a string. -/
def bytes (s : String) : List Nat := s.toList.map Char.toNat

/-- Buffer after `snprintf(buf, n, ...)` produced the text `s`: at most `n - 1` bytes and a
    terminating zero. -/
def snprintf (n : Nat) (s : String) (buf : List Nat) : List Nat :=
  let t := (bytes s).take (n - 1)
  t ++ 0 :: buf.drop (t.length + 1)

/-- The C string starting at `buf[0]`: the bytes before the first zero; `none` when the array
    holds no zero (reading the string runs past the array). -/
def cstr (buf : List Nat) : Option (List Nat) :=
  if 0 ∈ buf then some (buf.takeWhile (fun c => c ≠ 0)) else none

/-- `set_run`: the new value of the global `run`. -/
def set_run (run_new : Int) : List Ev × Int := ([Ev.set_run run_new], run_new)

/-- `get_run`: the value of the global `run`. -/
def get_run (run : Int) : List Ev × Int := ([Ev.get_run run], run)

/-- `gpib_write`: one `ibwrt` of the whole string; returns its status. -/
def gpib_write (fd : Int) (str : String) (sta : Int) : List Ev × Int :=
  ([Ev.ibwrt fd str sta], sta)

/-- `gpib_read`: `ibrd` stores at most `len` bytes at the start of `buf` and sets `ibcnt`;
    then `buf[ibcnt] = 0` when `ibcnt < len`. Returns the status and the buffer. -/
def gpib_read (fd : Int) (buf : List Nat) (len : Int) (res : Ibrd) : List Ev × Int × List Nat :=
  let data := res.data.take len.toNat
  let ibcnt : Int := data.length
  let buf1 := data ++ buf.drop data.length
  let buf2 := if ibcnt < len then buf1.set ibcnt.toNat 0 else buf1
  ([Ev.ibrd fd len res.sta ibcnt], res.sta, buf2)

/-- The static variables of `get_time`. -/
structure TimeSt where
  first : Int
  t_first : Timeval
  deriving DecidableEq, Repr

/-- Initial values of the statics of `get_time`. -/
def TimeSt.init : TimeSt := ⟨1, ⟨0, 0⟩⟩

/-- `get_time`, given the result `now` of its `gettimeofday` call. -/
def get_time (st : TimeSt) (now : Option Timeval) : List Ev × Dbl × TimeSt :=
  if st.first = 1 then
    match now with
    | none => ([Ev.gettimeofday none, Ev.eprintf "# E: unable to get time"], Dbl.ofInt (-1), st)
    | some t => ([Ev.gettimeofday (some t)], Dbl.zero, ⟨0, t⟩)
  else
    match now with
    | none => ([Ev.gettimeofday none, Ev.eprintf "# E: unable to get time"], Dbl.ofInt (-2), st)
    | some t =>
      let ret := Dbl.add (Dbl.mul (Dbl.ofInt (t.tv_sec - st.t_first.tv_sec)) (Dbl.lit 1000000 1))
        (Dbl.ofInt (t.tv_usec - st.t_first.tv_usec))
      ([Ev.gettimeofday (some t)], Dbl.div ret (Dbl.lit 1000000 1), st)

/-! ## worker -/

/-- The locals of `worker` that change in the sweep loop, and the statics of `get_time`. -/
structure Loop where
  vac_index : Nat
  buf : List Nat
  clk : TimeSt

/-- Reading parsed from the buffer by `atof(buf)`; `none` when the array holds no terminator. -/
def reading (env : Env) (buf : List Nat) : Option Dbl := (cstr buf).map env.atof

/-- One evaluation of the loop test `get_run()` and, when it holds, of the loop body.
    Returns the events and the next state, or `none` when the loop is left. -/
def step (env : Env) (pps_fd vm_fd : Int) (vac_fp gp : Nat) (s : Loop) :
    List Ev × Option Loop :=
  let k := s.vac_index
  let e0 := (get_run (env.run k)).1
  if (get_run (env.run k)).2 = 0 then (e0, none) else
  let voltage := Dbl.mul (Dbl.ofInt (k : Int)) VOLTAGE_STEP
  if Dbl.lt VOLTAGE_MAX voltage then (e0 ++ (set_run 0).1, none) else
  let buf1 := snprintf 100 ("voltage " ++ fmt3 voltage) s.buf
  let e1 := e0 ++ (gpib_write pps_fd ("voltage " ++ fmt3 voltage) (env.ibwrt_sta (k + 1) 0)).1
    ++ [Ev.usleep STEP_DELAY]
  let tm := get_time s.clk (env.clock k)
  let vac_time := tm.2.1
  let e2 := e1 ++ tm.1
  if Dbl.lt vac_time Dbl.zero then
    (e2 ++ [Ev.eprintf "# E: Unable to get time"] ++ (set_run 0).1, none) else
  let r1 := gpib_read pps_fd buf1 100 (env.ibrd_res k 0)
  let pps_voltage := reading env r1.2.2
  let r2 := gpib_read pps_fd r1.2.2 100 (env.ibrd_res k 1)
  let pps_current := reading env r2.2.2
  let r3 := gpib_read vm_fd r2.2.2 100 (env.ibrd_res k 2)
  let vm_current := reading env r3.2.2
  let e3 := e2
    ++ (gpib_write pps_fd "measure:voltage?" (env.ibwrt_sta (k + 1) 1)).1 ++ r1.1
    ++ (gpib_write pps_fd "measure:current?" (env.ibwrt_sta (k + 1) 2)).1 ++ r2.1
    ++ (gpib_write vm_fd "read?" (env.ibwrt_sta (k + 1) 3)).1 ++ r3.1
  let e4 := e3 ++ [Ev.fprintf_row vac_fp k vac_time pps_voltage pps_current vm_current (env.row_r k)]
  if env.row_r k < 0 then
    (e4 ++ [Ev.eprintf "# E: Unable to print to file"] ++ (set_run 0).1, none) else
  let e5 := e4 ++ [Ev.fprintf_plot gp k vac_time (env.plot_r k)]
  if env.plot_r k < 0 then
    (e5 ++ [Ev.eprintf "# E: Unable to print to gp"] ++ (set_run 0).1, none) else
  (e5, some ⟨k + 1, r3.2.2, tm.2.2⟩)

/-- The loop `while(get_run()) { ... }`: the events up to the point where the loop is left;
    `none` when the given number of loop tests does not suffice. -/
def sweep (env : Env) (pps_fd vm_fd : Int) (vac_fp gp : Nat) : Nat → Loop → Option (List Ev)
  | 0, _ => none
  | n + 1, s =>
    match step env pps_fd vm_fd vac_fp gp s with
    | (evs, none) => some evs
    | (evs, some s1) => (sweep env pps_fd vm_fd vac_fp gp n s1).map (fun t => evs ++ t)

/-- The fifteen setup commands to the supply. -/
def pps_init : List String :=
  ["output 0", "instrument:nselect 1", "voltage:protection:clear", "voltage:protection:state on",
   "voltage:protection:level 5.5V", "voltage 5.0", "current 0.5", "channel:output 1",
   "instrument:nselect 2", "voltage:protection:clear", "voltage:protection:state on",
   "voltage:protection:level 11V", "voltage 0.0", "current 0.1", "channel:output 1"]

/-- The eight setup commands to the voltmeter. -/
def vm_init : List String :=
  ["function \"current:dc\"", "current:dc:range:auto on", "current:dc:nplcycles 10",
   "trigger:source immediate", "trigger:delay:auto off", "trigger:delay 0", "trigger:count 1",
   "sample:count 1"]

/-- A run of `gpib_write` calls outside the loop, numbered from `n0`. -/
def write_all (env : Env) (fd : Int) (n0 : Nat) (cmds : List String) : List Ev :=
  (cmds.enum.map (fun p => (gpib_write fd p.2 (env.ibwrt_sta 0 (n0 + p.1))).1)).flatten

/-- Code from the label `worker_vm_ibfind` to the return. -/
def worker_vm_ibfind (env : Env) (pps_fd : Int) : List Ev :=
  [Ev.ibclr pps_fd] ++ (gpib_write pps_fd "*rst" (env.ibwrt_sta 0 26)).1
    ++ [Ev.sleep 1, Ev.ibloc pps_fd]

/-- Code from the label `worker_vac_fopen` to the return. -/
def worker_vac_fopen (env : Env) (pps_fd vm_fd : Int) : List Ev :=
  [Ev.ibclr vm_fd] ++ (gpib_write vm_fd "*rst" (env.ibwrt_sta 0 25)).1
    ++ [Ev.sleep 1, Ev.ibloc vm_fd] ++ worker_vm_ibfind env pps_fd

/-- Code from the labels `worker_gp_popen` and `worker_vac_header` to the return. -/
def worker_vac_header (env : Env) (pps_fd vm_fd : Int) (vac_fp : Nat) : List Ev :=
  [Ev.fclose vac_fp env.fclose_r]
    ++ (if env.fclose_r = EOF then [Ev.eprintf "# E: Unable to close file"] else [])
    ++ worker_vac_fopen env pps_fd vm_fd

/-- Code from the label `worker_gp_settings` to the return. -/
def worker_gp_settings (env : Env) (pps_fd vm_fd : Int) (vac_fp gp : Nat) : List Ev :=
  [Ev.pclose gp env.pclose_r]
    ++ (if env.pclose_r = -1 then [Ev.eprintf "# E: Unable to close gnuplot pipe"] else [])
    ++ worker_vac_header env pps_fd vm_fd vac_fp

/-- The two `gpib_write` calls after the loop. -/
def shutdown (env : Env) (pps_fd : Int) : List Ev :=
  (gpib_write pps_fd "output 0" (env.ibwrt_sta 0 23)).1
    ++ (gpib_write pps_fd "voltage 0" (env.ibwrt_sta 0 24)).1

/-- The thread function `worker`: all its events up to its return, or up to a call with
    undefined behaviour (the trace then ends with `Ev.undefined`: when `fopen` returns `NULL`,
    the argument `strerror(ferror(vac_fp))` of the report is evaluated on the null pointer);
    `none` when the sweep loop needs more than `fuel` loop tests. -/
def worker (env : Env) (fuel : Nat) : Option (List Ev) :=
  let e0 := [Ev.ibfind PPS_GPIB_NAME env.ibfind_pps]
  if env.ibfind_pps = -1 then
    some (e0 ++ [Ev.eprintf "# E: Unable to open power supply"]) else
  let pps_fd := env.ibfind_pps
  let e1 := e0 ++ [Ev.ibfind VM_GPIB_NAME env.ibfind_vm]
  if env.ibfind_vm = -1 then
    some (e1 ++ [Ev.eprintf "# E: Unable to open voltmeter"] ++ worker_vm_ibfind env pps_fd) else
  let vm_fd := env.ibfind_vm
  let e2 := e1 ++ write_all env pps_fd 0 pps_init ++ write_all env vm_fd 15 vm_init
    ++ [Ev.fopen env.filename_vac env.fopen_vac]
  let vac_fp := env.fopen_vac
  if vac_fp = 0 then
    some (e2 ++ [Ev.ferror vac_fp, Ev.undefined]) else
  let e3 := e2 ++ [Ev.setlinebuf vac_fp, Ev.fprintf_header vac_fp env.header_r]
  if env.header_r < 0 then
    some (e3 ++ [Ev.eprintf "# E: Unable to print to file"]
      ++ worker_vac_header env pps_fd vm_fd vac_fp) else
  let buf1 := snprintf 100 ("gnuplot > " ++ env.dir_str ++ "/gnuplot.log 2>&1") env.buf0
  let e4 := e3 ++ [Ev.popen ((cstr buf1).getD []) env.popen_gp]
  let gp := env.popen_gp
  if gp = 0 then
    some (e4 ++ [Ev.eprintf "# E: unable to open gnuplot pipe"]
      ++ worker_vac_header env pps_fd vm_fd vac_fp) else
  let e5 := e4 ++ [Ev.setlinebuf gp, Ev.fprintf_axes gp env.axes_r]
  if env.axes_r < 0 then
    some (e5 ++ [Ev.eprintf "# E: Unable to print to gp"]
      ++ worker_gp_settings env pps_fd vm_fd vac_fp gp) else
  (sweep env pps_fd vm_fd vac_fp gp fuel ⟨0, buf1, TimeSt.init⟩).map (fun loop =>
    e5 ++ loop ++ shutdown env pps_fd ++ worker_gp_settings env pps_fd vm_fd vac_fp gp)

/-! ## commander -/

/-- Text printed for the command `h`. -/
def help_text : String := "Help:\n\th -- this help;\n\tq -- exit the program;\n"

/-- The body of the loop of `commander` for one result `s` of `fgets` (`none` is `NULL`):
    the events, the new value of `run`, and whether the loop was left by `break`. -/
def commander_body (s : Option String) (run : Int) : List Ev × Int × Bool :=
  let e0 := [Ev.printf "> ", Ev.fgets s]
  match s with
  | none => (e0 ++ [Ev.eprintf "# E: Exit\n"] ++ (set_run 0).1, (set_run 0).2, true)
  | some str =>
    if str.toList.head? = some 'h' then (e0 ++ [Ev.printf help_text], run, false)
    else if str.toList.head? = some 'q' then (e0 ++ (set_run 0).1, (set_run 0).2, false)
    else (e0 ++ [Ev.eprintf ("# E: Unknown command (" ++ str.dropRight 1 ++ ")\n")], run, false)

/-- The thread function `commander` over at most the given number of loop tests, starting with
    the `k`-th line of input and the value `run` of the flag. `stop k` tells that the other
    thread cleared the flag before the `k`-th loop test. Returns the events, the value of the
    flag, and whether the function returned. -/
def commander (input : Nat → Option String) (stop : Nat → Bool) :
    Nat → Nat → Int → List Ev × Int × Bool
  | 0, _, run => ([], run, false)
  | n + 1, k, run =>
    let run1 := if stop k then 0 else run
    let g := get_run run1
    if g.2 = 0 then (g.1, run1, true) else
    let b := commander_body (input k) run1
    if b.2.2 then (g.1 ++ b.1, b.2.1, true) else
    let rest := commander input stop n (k + 1) b.2.1
    (g.1 ++ b.1 ++ rest.1, rest.2.1, rest.2.2)

/-! ## observations on traces -/

/-- Release operations: `pclose`, `fclose`, `ibclr`, the reset command and `ibloc`. -/
def is_release : Ev → Bool
  | Ev.pclose _ _ => true
  | Ev.fclose _ _ => true
  | Ev.ibclr _ => true
  | Ev.ibloc _ => true
  | Ev.ibwrt _ cmd _ => decide (cmd = "*rst")
  | _ => false

/-- Calls of `set_run`. -/
def is_set_run : Ev → Bool
  | Ev.set_run _ => true
  | _ => false

/-- The index of a row written to the log file. -/
def row_index : Ev → Option Int
  | Ev.fprintf_row _ k _ _ _ _ _ => some k
  | _ => none

/-- The elapsed time of a row written to the log file. -/
def row_time : Ev → Option Dbl
  | Ev.fprintf_row _ _ t _ _ _ _ => some t
  | _ => none

/-- Commands written to descriptor `fd` other than the measurement queries. -/
def command_to (fd : Int) : Ev → Option String
  | Ev.ibwrt fd1 cmd _ =>
    if fd1 = fd ∧ cmd ≠ "measure:voltage?" ∧ cmd ≠ "measure:current?" ∧ cmd ≠ "read?"
    then some cmd else none
  | _ => none

/-- The value of the global `run` after an event. -/
def run_after (run : Int) : Ev → Int
  | Ev.set_run v => v
  | _ => run

/-- All four acquisition stages succeed. -/
def Acquired (env : Env) : Prop :=
  env.ibfind_pps ≠ -1 ∧ env.ibfind_vm ≠ -1 ∧ env.fopen_vac ≠ 0 ∧ 0 ≤ env.header_r
    ∧ env.popen_gp ≠ 0 ∧ 0 ≤ env.axes_r

instance (env : Env) : Decidable (Acquired env) := by
  unfold Acquired; exact inferInstance

/-- Merges of the events of two threads. -/
inductive Interleave : List Ev → List Ev → List Ev → Prop
  | nil : Interleave [] [] []
  | left (x : Ev) {xs ys zs : List Ev} : Interleave xs ys zs → Interleave (x :: xs) ys (x :: zs)
  | right (y : Ev) {xs ys zs : List Ev} : Interleave xs ys zs → Interleave xs (y :: ys) (y :: zs)

/-! ## sample environments and the commands as the specification names them -/

/-- An environment in which every call succeeds, every answer is the text `1`, the clock
    advances one second per step and nobody clears the run flag. -/
def env_ok : Env where
  dir_str := "d"
  filename_vac := "d/vac.dat"
  buf0 := List.replicate 100 0
  ibfind_pps := 3
  ibfind_vm := 4
  ibwrt_sta := fun _ _ => 0
  fopen_vac := 1
  header_r := 70
  popen_gp := 2
  axes_r := 70
  run := fun _ => 1
  clock := fun k => some ⟨100 + (k : Int), 5⟩
  ibrd_res := fun _ _ => ⟨0, [49, 10]⟩
  atof := fun _ => Dbl.ofInt 1
  row_r := fun _ => 40
  plot_r := fun _ => 60
  pclose_r := 0
  fclose_r := 0

/-- The help command as the specification names it: the line `h` or `help`. -/
def spec_help_command (line : String) : Prop := line = "h\n" ∨ line = "help\n"

/-- The quit command as the specification names it: the line `q` or `quit`. -/
def spec_quit_command (line : String) : Prop := line = "q\n" ∨ line = "quit\n"

instance (line : String) : Decidable (spec_help_command line) := by
  unfold spec_help_command; exact inferInstance

instance (line : String) : Decidable (spec_quit_command line) := by
  unfold spec_quit_command; exact inferInstance

/-- Events that only the sweep loop produces. -/
def in_sweep : Ev → Bool
  | Ev.get_run _ => true
  | Ev.set_run _ => true
  | Ev.usleep _ => true
  | Ev.gettimeofday _ => true
  | Ev.ibrd _ _ _ _ => true
  | Ev.fprintf_row _ _ _ _ _ _ _ => true
  | Ev.fprintf_plot _ _ _ _ => true
  | _ => false

/-- Opening of the log file. -/
def is_fopen : Ev → Bool
  | Ev.fopen _ _ => true
  | _ => false


/-- Events of the kind the sweep loop produces: no release operation, no acquisition, no
    `set_run` with a value other than 0, and no write of one of the two shutdown commands. -/
def loop_event : Ev → Bool
  | Ev.get_run _ => true
  | Ev.set_run v => decide (v = 0)
  | Ev.usleep _ => true
  | Ev.gettimeofday _ => true
  | Ev.eprintf _ => true
  | Ev.ibrd _ _ _ _ => true
  | Ev.fprintf_row _ _ _ _ _ _ _ => true
  | Ev.fprintf_plot _ _ _ _ => true
  | Ev.ibwrt _ cmd _ => decide (cmd ≠ "*rst" ∧ cmd ≠ "voltage 0" ∧ cmd ≠ "output 0")
  | _ => false


/-- Whether the event is a write of the given command, to any descriptor. -/
def is_command (cmd : String) : Ev → Bool
  | Ev.ibwrt _ c _ => decide (c = cmd)
  | _ => false

/-- The contents of `buf` when the sweep loop starts: the `popen` command line. -/
def buf_at_loop (env : Env) : List Nat :=
  snprintf 100 ("gnuplot > " ++ env.dir_str ++ "/gnuplot.log 2>&1") env.buf0

/-- The events of `worker` before the loop when all four stages succeed. -/
def acquisition (env : Env) : List Ev :=
  [Ev.ibfind PPS_GPIB_NAME env.ibfind_pps, Ev.ibfind VM_GPIB_NAME env.ibfind_vm]
    ++ write_all env env.ibfind_pps 0 pps_init ++ write_all env env.ibfind_vm 15 vm_init
    ++ [Ev.fopen env.filename_vac env.fopen_vac, Ev.setlinebuf env.fopen_vac,
        Ev.fprintf_header env.fopen_vac env.header_r,
        Ev.popen ((cstr (buf_at_loop env)).getD []) env.popen_gp,
        Ev.setlinebuf env.popen_gp, Ev.fprintf_axes env.popen_gp env.axes_r]

/-- The statics of `get_time` when the step with index `k` starts. -/
def clk_at (env : Env) : Nat → TimeSt
  | 0 => TimeSt.init
  | k + 1 => (get_time (clk_at env k) (env.clock k)).2.2

/-- The value `vac_time` that `get_time` returns in the step with index `k`. -/
def vac_time_at (env : Env) (k : Nat) : Dbl := (get_time (clk_at env k) (env.clock k)).2.1


/-- Calls of stdio functions on the log file or the plot pipe. -/
def is_stdio : Ev → Bool
  | Ev.fopen _ _ => true
  | Ev.ferror _ => true
  | Ev.setlinebuf _ => true
  | Ev.fprintf_header _ _ => true
  | Ev.fprintf_row _ _ _ _ _ _ _ => true
  | Ev.popen _ _ => true
  | Ev.fprintf_axes _ _ => true
  | Ev.fprintf_plot _ _ _ _ => true
  | Ev.pclose _ _ => true
  | Ev.fclose _ _ => true
  | _ => false

/-- As `env_ok`, but the header `fprintf` fails. -/
def env_header_fails : Env := { env_ok with header_r := -1 }

/-- As `env_ok`, but the axis setup `fprintf` fails. -/
def env_axes_fails : Env := { env_ok with axes_r := -1 }

/-- As `env_ok`, but `fopen` returns `NULL`. -/
def env_fopen_null : Env := { env_ok with fopen_vac := 0 }

/-- As `env_ok`, but the voltmeter is not found. -/
def env_vm_missing : Env := { env_ok with ibfind_vm := -1 }


/-- Events that never set the run flag to a value other than 0. -/
def run_safe : Ev → Bool
  | Ev.set_run v => decide (v = 0)
  | _ => true


/-! ## the parts of one step, named for the proofs -/

/-- The voltage computed in the step with index `k`: `vac_index * VOLTAGE_STEP`. -/
def voltage_of (k : Nat) : Dbl := Dbl.mul (Dbl.ofInt (k : Int)) VOLTAGE_STEP

/-- Events of a step from the loop test to the return of `get_time`. -/
def head_events (env : Env) (pps_fd : Int) (s : Loop) : List Ev :=
  [Ev.get_run (env.run s.vac_index),
   Ev.ibwrt pps_fd ("voltage " ++ fmt3 (voltage_of s.vac_index)) (env.ibwrt_sta (s.vac_index + 1) 0),
   Ev.usleep STEP_DELAY] ++ (get_time s.clk (env.clock s.vac_index)).1

/-- The buffer after the first, second and third `gpib_read` of a step. -/
def buf_after (env : Env) (s : Loop) : Nat → List Nat
  | 0 => snprintf 100 ("voltage " ++ fmt3 (voltage_of s.vac_index)) s.buf
  | j + 1 => (gpib_read 0 (buf_after env s j) 100 (env.ibrd_res s.vac_index j)).2.2

/-- Events of the three queries of a step. -/
def query_events (env : Env) (pps_fd vm_fd : Int) (s : Loop) : List Ev :=
  [Ev.ibwrt pps_fd "measure:voltage?" (env.ibwrt_sta (s.vac_index + 1) 1)]
    ++ (gpib_read pps_fd (buf_after env s 0) 100 (env.ibrd_res s.vac_index 0)).1
    ++ [Ev.ibwrt pps_fd "measure:current?" (env.ibwrt_sta (s.vac_index + 1) 2)]
    ++ (gpib_read pps_fd (buf_after env s 1) 100 (env.ibrd_res s.vac_index 1)).1
    ++ [Ev.ibwrt vm_fd "read?" (env.ibwrt_sta (s.vac_index + 1) 3)]
    ++ (gpib_read vm_fd (buf_after env s 2) 100 (env.ibrd_res s.vac_index 2)).1

/-- The row written to the log file in a step. -/
def row_event (env : Env) (vac_fp : Nat) (s : Loop) : Ev :=
  Ev.fprintf_row vac_fp s.vac_index (get_time s.clk (env.clock s.vac_index)).2.1
    (reading env (buf_after env s 1)) (reading env (buf_after env s 2))
    (reading env (buf_after env s 3)) (env.row_r s.vac_index)

/-- The plot update written in a step. -/
def plot_event (env : Env) (gp : Nat) (s : Loop) : Ev :=
  Ev.fprintf_plot gp s.vac_index (get_time s.clk (env.clock s.vac_index)).2.1
    (env.plot_r s.vac_index)

/-- The state after a complete step. -/
def next_state (env : Env) (s : Loop) : Loop :=
  ⟨s.vac_index + 1, buf_after env s 3, (get_time s.clk (env.clock s.vac_index)).2.2⟩


/-- As `env_ok`, but the write of the row with index 1 fails. -/
def env_row_fails : Env := { env_ok with row_r := fun k => if k = 1 then -1 else 40 }

/-- As `env_ok`, but the clock cannot be read. -/
def env_clock_fails : Env := { env_ok with clock := fun _ => none }


/-- The environment `env` with other outcomes of the bus calls: statuses `sta` of the writes
    and outcomes `res` of the reads. -/
def with_bus (env : Env) (sta : Nat → Nat → Int) (res : Nat → Nat → Ibrd) : Env :=
  { env with ibwrt_sta := sta, ibrd_res := res }

/-- The view of a trace without the bus traffic: writes and reads on the bus are dropped and
    the readings in a row of the log file are blanked. -/
def control_view : Ev → Option Ev
  | Ev.ibwrt _ _ _ => none
  | Ev.ibrd _ _ _ _ => none
  | Ev.fprintf_row fp k t _ _ _ r => some (Ev.fprintf_row fp k t none none none r)
  | e => some e

/-- As `env_ok`, but in the first step every query fails on the bus (status with the `ERR`
    bit, no byte received), `atof` of the empty text is 0, and the operator stops the run
    before the third step. -/
def env_bus_down : Env :=
  { env_ok with
    ibwrt_sta := fun i j => if i = 1 ∧ 1 ≤ j then 32768 else 256
    ibrd_res := fun k _ => if k = 0 then ⟨32768, []⟩ else ⟨256, [49, 10]⟩
    atof := fun t => if t = [] then Dbl.zero else Dbl.ofInt 1
    run := fun k => if k < 2 then 1 else 0 }


/-- The text of the voltage command for `i / 10` volts, written with three decimals. -/
def voltage_text (i : Nat) : String := "voltage " ++ fmtMilli (100 * i)


/-! ## clock readings -/

/-- The double `x` is the integer `c`, held without a positive exponent. -/
def Exact (x : Dbl) (c : Int) : Prop := x.e ≤ 0 ∧ x.m = c * 2 ^ (-x.e).toNat

/-- A `struct timeval` as `gettimeofday` delivers it: microseconds in `[0, 10^6)`. -/
def Timeval.valid (t : Timeval) : Prop := 0 ≤ t.tv_usec ∧ t.tv_usec < 1000000

/-- The clock reading `a` is earlier than `b`: seconds first, then microseconds. -/
def Timeval.lt (a b : Timeval) : Prop :=
  a.tv_sec < b.tv_sec ∨ (a.tv_sec = b.tv_sec ∧ a.tv_usec < b.tv_usec)

instance (t : Timeval) : Decidable t.valid := by
  unfold Timeval.valid; exact inferInstance

instance (a b : Timeval) : Decidable (a.lt b) := by
  unfold Timeval.lt; exact inferInstance

/-- The clock reading of `env_ok` in step `k`. -/
def clock_ok (k : Nat) : Timeval := ⟨100 + (k : Int), 5⟩

/-- The clock reading of `env_far_clock` in step `k`: the first reading at 0 s, the later ones
    2^33 s and `k` microseconds after it. -/
def clock_far (k : Nat) : Timeval := if k = 0 then ⟨0, 0⟩ else ⟨8589934592, (k : Int)⟩

/-- As `env_ok`, but with the clock `clock_far`, and the operator stops the run before the
    fourth step. -/
def env_far_clock : Env :=
  { env_ok with
    clock := fun k => some (clock_far k)
    run := fun k => if k < 3 then 1 else 0 }


/-- The texts of the commands for 0.0 V, 0.1 V, ..., 10.0 V: `voltage` and `i * 0.1` written
    with three decimals, for `i` from 0 to 100. -/
def sweep_commands : List String :=
  ["voltage 0.000", "voltage 0.100", "voltage 0.200", "voltage 0.300", "voltage 0.400",
   "voltage 0.500", "voltage 0.600", "voltage 0.700", "voltage 0.800", "voltage 0.900",
   "voltage 1.000", "voltage 1.100", "voltage 1.200", "voltage 1.300", "voltage 1.400",
   "voltage 1.500", "voltage 1.600", "voltage 1.700", "voltage 1.800", "voltage 1.900",
   "voltage 2.000", "voltage 2.100", "voltage 2.200", "voltage 2.300", "voltage 2.400",
   "voltage 2.500", "voltage 2.600", "voltage 2.700", "voltage 2.800", "voltage 2.900",
   "voltage 3.000", "voltage 3.100", "voltage 3.200", "voltage 3.300", "voltage 3.400",
   "voltage 3.500", "voltage 3.600", "voltage 3.700", "voltage 3.800", "voltage 3.900",
   "voltage 4.000", "voltage 4.100", "voltage 4.200", "voltage 4.300", "voltage 4.400",
   "voltage 4.500", "voltage 4.600", "voltage 4.700", "voltage 4.800", "voltage 4.900",
   "voltage 5.000", "voltage 5.100", "voltage 5.200", "voltage 5.300", "voltage 5.400",
   "voltage 5.500", "voltage 5.600", "voltage 5.700", "voltage 5.800", "voltage 5.900",
   "voltage 6.000", "voltage 6.100", "voltage 6.200", "voltage 6.300", "voltage 6.400",
   "voltage 6.500", "voltage 6.600", "voltage 6.700", "voltage 6.800", "voltage 6.900",
   "voltage 7.000", "voltage 7.100", "voltage 7.200", "voltage 7.300", "voltage 7.400",
   "voltage 7.500", "voltage 7.600", "voltage 7.700", "voltage 7.800", "voltage 7.900",
   "voltage 8.000", "voltage 8.100", "voltage 8.200", "voltage 8.300", "voltage 8.400",
   "voltage 8.500", "voltage 8.600", "voltage 8.700", "voltage 8.800", "voltage 8.900",
   "voltage 9.000", "voltage 9.100", "voltage 9.200", "voltage 9.300", "voltage 9.400",
   "voltage 9.500", "voltage 9.600", "voltage 9.700", "voltage 9.800", "voltage 9.900",
   "voltage 10.000"]

/-- As `env_ok`, but the clock, read without failure, steps back by one second after the first
    reading. -/
def env_clock_back : Env :=
  { env_ok with clock := fun k => if k = 0 then some ⟨100, 5⟩ else some ⟨99, 5⟩ }

end Vac

namespace Vac

/-! ## theorems -/

/-! ### `gpib_read` -/

theorem takeWhile_append_stop (p : Nat → Bool) (l r : List Nat) (a : Nat) (ha : p a = false) :
    (l ++ a :: r).takeWhile p = l.takeWhile p := by
  induction l with
  | nil => simp [List.takeWhile, ha]
  | cons x xs ih =>
    simp only [List.cons_append, List.takeWhile]
    cases p x <;> simp [ih]

theorem set_append_drop (data buf : List Nat) (h : data.length < buf.length) :
    (data ++ buf.drop data.length).set data.length 0 = data ++ 0 :: buf.drop (data.length + 1) := by
  rw [List.set_append_right _ _ (le_refl _)]
  simp only [Nat.sub_self]
  congr 1
  cases hd : buf.drop data.length with
  | nil => simp at hd; omega
  | cons y ys =>
    simp only [List.set_cons_zero]
    congr 1
    have := congrArg (List.drop 1) hd
    simpa [List.drop_drop, Nat.add_comm] using this.symm

/-- C6 (counterexample): a read that fills all `len = 3` cells stores no terminator, and the
    buffer holds no C string at all. -/
theorem gpib_read_full_unterminated :
    ((([49, 50, 51] : List Nat).length : Int) ≤ 3)
      ∧ (gpib_read 3 [0, 0, 0] 3 ⟨0, [49, 50, 51]⟩).2.2 = [49, 50, 51]
      ∧ cstr (gpib_read 3 [0, 0, 0] 3 ⟨0, [49, 50, 51]⟩).2.2 = none := by
  decide

/-- C6 (amended): for a buffer of `len` cells and `n` received bytes, `n ≤ len`, the buffer starts
    with the received bytes; when `n < len` a zero is stored at index `n` and the C string in the
    buffer is the received bytes up to their first zero byte; when `n = len` nothing is stored
    after the received bytes and the buffer is exactly those bytes. -/
theorem gpib_read_buffer (fd : Int) (buf : List Nat) (len : Int) (res : Ibrd)
    (hbuf : (buf.length : Int) = len) (hn : (res.data.length : Int) ≤ len) :
    (gpib_read fd buf len res).2.2.take res.data.length = res.data
      ∧ ((res.data.length : Int) < len →
          (gpib_read fd buf len res).2.2 = res.data ++ 0 :: buf.drop (res.data.length + 1)
          ∧ cstr (gpib_read fd buf len res).2.2 = some (res.data.takeWhile (fun c => c ≠ 0)))
      ∧ ((res.data.length : Int) = len → (gpib_read fd buf len res).2.2 = res.data) := by
  have htake : res.data.take len.toNat = res.data := by
    apply List.take_of_length_le; omega
  refine ⟨?_, ?_, ?_⟩
  · unfold gpib_read
    simp only [htake]
    split_ifs with h
    · rw [Int.toNat_ofNat, set_append_drop _ _ (by omega)]; simp
    · simp
  · intro hlt
    have hb : (gpib_read fd buf len res).2.2 = res.data ++ 0 :: buf.drop (res.data.length + 1) := by
      unfold gpib_read
      simp only [htake, hlt, if_true]
      rw [Int.toNat_ofNat, set_append_drop _ _ (by omega)]
    refine ⟨hb, ?_⟩
    rw [hb]
    unfold cstr
    rw [if_pos (by simp)]
    rw [takeWhile_append_stop _ _ _ _ (by simp)]
  · intro heq
    unfold gpib_read
    simp only [htake]
    rw [if_neg (by omega)]
    have : buf.length ≤ res.data.length := by omega
    simp [List.drop_of_length_le this]

/-- Witness for `gpib_read_buffer`: a two-byte answer in a four-cell buffer. -/
theorem gpib_read_buffer_witness :
    (gpib_read 3 [7, 7, 7, 7] 4 ⟨0, [49, 50]⟩).2.2.take 2 = [49, 50]
      ∧ (((2 : Nat) : Int) < 4 →
          (gpib_read 3 [7, 7, 7, 7] 4 ⟨0, [49, 50]⟩).2.2 = [49, 50] ++ 0 :: [7, 7, 7, 7].drop (2 + 1)
          ∧ cstr (gpib_read 3 [7, 7, 7, 7] 4 ⟨0, [49, 50]⟩).2.2
              = some ([49, 50].takeWhile (fun c => c ≠ 0)))
      ∧ (((2 : Nat) : Int) = 4 → (gpib_read 3 [7, 7, 7, 7] 4 ⟨0, [49, 50]⟩).2.2 = [49, 50]) :=
  gpib_read_buffer 3 [7, 7, 7, 7] 4 ⟨0, [49, 50]⟩ (by decide) (by decide)

/-! ### the sweep loop -/

theorem pad3_length (n : Nat) : (pad3 n).length = 3 := rfl

theorem voltage_cmd_length (v : Dbl) : 12 ≤ ("voltage " ++ fmt3 v).length := by
  simp only [fmt3, fmtMilli, String.length_append, pad3_length]
  have h8 : ("voltage ".length) = 8 := rfl
  have h1 : (".".length) = 1 := rfl
  omega

theorem voltage_cmd_ne (v : Dbl) (c : String) (hc : c.length < 12) :
    "voltage " ++ fmt3 v ≠ c := by
  intro h
  have := voltage_cmd_length v
  rw [h] at this
  omega

theorem step_loop_event (env : Env) (pps_fd vm_fd : Int) (vac_fp gp : Nat) (s : Loop) :
    (step env pps_fd vm_fd vac_fp gp s).1.all loop_event = true := by
  have h1 := voltage_cmd_ne (Dbl.mul (Dbl.ofInt (s.vac_index : Int)) VOLTAGE_STEP) "*rst" (by decide)
  have h2 := voltage_cmd_ne (Dbl.mul (Dbl.ofInt (s.vac_index : Int)) VOLTAGE_STEP) "voltage 0"
    (by decide)
  have h3 := voltage_cmd_ne (Dbl.mul (Dbl.ofInt (s.vac_index : Int)) VOLTAGE_STEP) "output 0"
    (by decide)
  have ht : (get_time s.clk (env.clock s.vac_index)).1.all loop_event = true := by
    unfold get_time
    split_ifs <;> cases env.clock s.vac_index <;> simp [loop_event]
  unfold step
  simp only [get_run, set_run, gpib_write, gpib_read]
  by_cases c1 : env.run s.vac_index = 0
  · simp [c1, loop_event]
  by_cases c2 : Dbl.lt VOLTAGE_MAX (Dbl.mul (Dbl.ofInt (s.vac_index : Int)) VOLTAGE_STEP)
  · simp [c1, c2, loop_event]
  by_cases c3 : Dbl.lt (get_time s.clk (env.clock s.vac_index)).2.1 Dbl.zero
  · simp only [c1, c2, c3, if_true, if_false, List.all_append, List.all_cons, ht]
    simp [loop_event, h1, h2, h3]
  by_cases c4 : env.row_r s.vac_index < 0
  · simp only [c1, c2, c3, c4, if_true, if_false, List.all_append, List.all_cons, ht]
    simp [loop_event, h1, h2, h3]
  by_cases c5 : env.plot_r s.vac_index < 0
  · simp only [c1, c2, c3, c4, c5, if_true, if_false, List.all_append, List.all_cons, ht]
    simp [loop_event, h1, h2, h3]
  · simp only [c1, c2, c3, c4, c5, if_true, if_false, List.all_append, List.all_cons, ht]
    simp [loop_event, h1, h2, h3]

theorem step_index (env : Env) (pps_fd vm_fd : Int) (vac_fp gp : Nat) (s s1 : Loop)
    (h : (step env pps_fd vm_fd vac_fp gp s).2 = some s1) : s1.vac_index = s.vac_index + 1 := by
  unfold step at h
  simp only [get_run, set_run] at h
  by_cases c1 : env.run s.vac_index = 0
  · simp [c1] at h
  by_cases c2 : Dbl.lt VOLTAGE_MAX (Dbl.mul (Dbl.ofInt (s.vac_index : Int)) VOLTAGE_STEP)
  · simp [c1, c2] at h
  by_cases c3 : Dbl.lt (get_time s.clk (env.clock s.vac_index)).2.1 Dbl.zero
  · simp [c1, c2, c3] at h
  by_cases c4 : env.row_r s.vac_index < 0
  · simp [c1, c2, c3, c4] at h
  by_cases c5 : env.plot_r s.vac_index < 0
  · simp [c1, c2, c3, c4, c5] at h
  · simp only [c1, c2, c3, c4, c5, if_false, Option.some.injEq] at h
    rw [← h]

set_option maxRecDepth 100000 in
theorem voltage_101 : Dbl.lt VOLTAGE_MAX (Dbl.mul (Dbl.ofInt 101) VOLTAGE_STEP) := by
  decide

theorem step_at_101 (env : Env) (pps_fd vm_fd : Int) (vac_fp gp : Nat) (s : Loop)
    (hs : s.vac_index = 101) : (step env pps_fd vm_fd vac_fp gp s).2 = none := by
  have hv : Dbl.lt VOLTAGE_MAX (Dbl.mul (Dbl.ofInt (s.vac_index : Int)) VOLTAGE_STEP) := by
    rw [hs]; exact voltage_101
  unfold step
  simp only [get_run, set_run]
  by_cases c1 : env.run s.vac_index = 0
  · simp [c1]
  · simp [c1, hv]

/-- The sweep loop is left after at most 102 loop tests. -/
theorem sweep_terminates (env : Env) (pps_fd vm_fd : Int) (vac_fp gp : Nat) :
    ∀ (fuel : Nat) (s : Loop), s.vac_index ≤ 101 → 102 ≤ s.vac_index + fuel →
      ∃ t, sweep env pps_fd vm_fd vac_fp gp fuel s = some t := by
  intro fuel
  induction fuel with
  | zero => intro s h1 h2; omega
  | succ n ih =>
    intro s h1 h2
    unfold sweep
    rcases hst : step env pps_fd vm_fd vac_fp gp s with ⟨evs, _ | s1⟩
    · exact ⟨evs, rfl⟩
    · have hi := step_index env pps_fd vm_fd vac_fp gp s s1 (by rw [hst])
      have hne : s.vac_index ≠ 101 := by
        intro h101
        have := step_at_101 env pps_fd vm_fd vac_fp gp s h101
        rw [hst] at this
        cases this
      obtain ⟨t, ht⟩ := ih s1 (by omega) (by omega)
      exact ⟨evs ++ t, by simp [ht]⟩

theorem sweep_loop_event (env : Env) (pps_fd vm_fd : Int) (vac_fp gp : Nat) :
    ∀ (fuel : Nat) (s : Loop) (t : List Ev), sweep env pps_fd vm_fd vac_fp gp fuel s = some t →
      t.all loop_event = true := by
  intro fuel
  induction fuel with
  | zero => intro s t h; simp [sweep] at h
  | succ n ih =>
    intro s t h
    unfold sweep at h
    have hs := step_loop_event env pps_fd vm_fd vac_fp gp s
    rcases hst : step env pps_fd vm_fd vac_fp gp s with ⟨evs, _ | s1⟩
    · rw [hst] at h hs
      simp only [Option.some.injEq] at h
      rw [← h]; exact hs
    · rw [hst] at h hs
      simp only [Option.map_eq_some'] at h
      obtain ⟨t1, ht1, rfl⟩ := h
      rw [List.all_append, hs, ih s1 t1 ht1]
      rfl

/-! ### `worker` -/

theorem worker_acquired (env : Env) (fuel : Nat) (h : Acquired env) :
    worker env fuel
      = (sweep env env.ibfind_pps env.ibfind_vm env.fopen_vac env.popen_gp fuel
          ⟨0, buf_at_loop env, TimeSt.init⟩).map (fun loop =>
        acquisition env ++ loop ++ shutdown env env.ibfind_pps
          ++ worker_gp_settings env env.ibfind_pps env.ibfind_vm env.fopen_vac env.popen_gp) := by
  obtain ⟨h1, h2, h3, h4, h5, h6⟩ := h
  unfold worker
  simp only [h1, h2, h3, h5, not_lt.mpr h4, not_lt.mpr h6, if_false]
  simp [acquisition, buf_at_loop]

theorem acquisition_no_release (env : Env) : (acquisition env).filter is_release = [] := by
  simp [acquisition, write_all, pps_init, vm_init, gpib_write, List.enum, List.enumFrom,
    is_release]

theorem loop_event_not_release (e : Ev) (h : loop_event e = true) : is_release e = false := by
  cases e <;> simp_all [loop_event, is_release]

theorem filter_release_loop (t : List Ev) (h : t.all loop_event = true) :
    t.filter is_release = [] := by
  rw [List.filter_eq_nil_iff]
  intro e he
  rw [List.all_eq_true] at h
  simp [loop_event_not_release e (h e he)]

theorem teardown_releases (env : Env) (pps_fd vm_fd : Int) (vac_fp gp : Nat) :
    (worker_gp_settings env pps_fd vm_fd vac_fp gp).filter is_release
      = [Ev.pclose gp env.pclose_r, Ev.fclose vac_fp env.fclose_r, Ev.ibclr vm_fd,
          Ev.ibwrt vm_fd "*rst" (env.ibwrt_sta 0 25), Ev.ibloc vm_fd, Ev.ibclr pps_fd,
          Ev.ibwrt pps_fd "*rst" (env.ibwrt_sta 0 26), Ev.ibloc pps_fd] := by
  unfold worker_gp_settings worker_vac_header worker_vac_fopen worker_vm_ibfind
  simp only [gpib_write]
  split_ifs <;> simp [is_release, List.filter]

/-- C2: when all four resources were acquired then, whatever the environment makes of the sweep
    loop and whatever `pclose` and `fclose` return, `worker` returns, and the release
    operations of its run are exactly: `pclose` of the plot pipe, `fclose` of the log file,
    clear/reset/local of the voltmeter session, clear/reset/local of the supply session, in
    this order, each once; the last of them is the last event before the return. -/
theorem worker_releases_all (env : Env) (fuel : Nat) (h : Acquired env) (hf : 102 ≤ fuel) :
    ∃ tr, worker env fuel = some tr
      ∧ tr.filter is_release
          = [Ev.pclose env.popen_gp env.pclose_r, Ev.fclose env.fopen_vac env.fclose_r,
              Ev.ibclr env.ibfind_vm, Ev.ibwrt env.ibfind_vm "*rst" (env.ibwrt_sta 0 25),
              Ev.ibloc env.ibfind_vm, Ev.ibclr env.ibfind_pps,
              Ev.ibwrt env.ibfind_pps "*rst" (env.ibwrt_sta 0 26), Ev.ibloc env.ibfind_pps]
      ∧ tr.getLast? = some (Ev.ibloc env.ibfind_pps) := by
  obtain ⟨loop, hl⟩ := sweep_terminates env env.ibfind_pps env.ibfind_vm env.fopen_vac
    env.popen_gp fuel ⟨0, buf_at_loop env, TimeSt.init⟩ (by simp) (by simpa using hf)
  have hle := sweep_loop_event env _ _ _ _ fuel _ loop hl
  refine ⟨_, by rw [worker_acquired env fuel h, hl]; rfl, ?_, ?_⟩
  · simp only [List.filter_append, acquisition_no_release, filter_release_loop loop hle,
      teardown_releases]
    simp [shutdown, gpib_write, is_release]
  · have ht : (worker_gp_settings env env.ibfind_pps env.ibfind_vm env.fopen_vac
        env.popen_gp).getLast? = some (Ev.ibloc env.ibfind_pps) := by
      unfold worker_gp_settings worker_vac_header worker_vac_fopen worker_vm_ibfind
      simp only [gpib_write]
      split_ifs <;> simp
    simp [List.getLast?_append, ht]

/-- Witness for `worker_releases_all`: the environment in which everything succeeds. -/
theorem worker_releases_all_witness :
    ∃ tr, worker env_ok 102 = some tr
      ∧ tr.filter is_release
          = [Ev.pclose env_ok.popen_gp env_ok.pclose_r, Ev.fclose env_ok.fopen_vac env_ok.fclose_r,
              Ev.ibclr env_ok.ibfind_vm, Ev.ibwrt env_ok.ibfind_vm "*rst" (env_ok.ibwrt_sta 0 25),
              Ev.ibloc env_ok.ibfind_vm, Ev.ibclr env_ok.ibfind_pps,
              Ev.ibwrt env_ok.ibfind_pps "*rst" (env_ok.ibwrt_sta 0 26),
              Ev.ibloc env_ok.ibfind_pps]
      ∧ tr.getLast? = some (Ev.ibloc env_ok.ibfind_pps) :=
  worker_releases_all env_ok 102 (by decide) (by decide)

theorem write_all_no_release_pps (env : Env) (fd : Int) :
    (write_all env fd 0 pps_init).filter is_release = []
      ∧ (write_all env fd 0 pps_init).filter in_sweep = []
      ∧ (write_all env fd 0 pps_init).filter is_fopen = [] := by
  simp [write_all, pps_init, gpib_write, List.enum, List.enumFrom, is_release, in_sweep, is_fopen]

theorem write_all_no_release_vm (env : Env) (fd : Int) :
    (write_all env fd 15 vm_init).filter is_release = []
      ∧ (write_all env fd 15 vm_init).filter in_sweep = [] := by
  simp [write_all, vm_init, gpib_write, List.enum, List.enumFrom, is_release, in_sweep]

/-- C1 (counterexample): when the header write of stage 2 fails, the log file of stage 2 is
    closed as well, not only stages 0 and 1; when the axis setup of stage 3 fails, the plot
    pipe of stage 3 is closed as well. -/
theorem failed_stage_is_released :
    (worker env_header_fails 0).map (List.filter is_release)
        = some [Ev.fclose 1 0, Ev.ibclr 4, Ev.ibwrt 4 "*rst" 0, Ev.ibloc 4, Ev.ibclr 3,
            Ev.ibwrt 3 "*rst" 0, Ev.ibloc 3]
      ∧ (worker env_axes_fails 0).map (List.filter is_release)
        = some [Ev.pclose 2 0, Ev.fclose 1 0, Ev.ibclr 4, Ev.ibwrt 4 "*rst" 0, Ev.ibloc 4,
            Ev.ibclr 3, Ev.ibwrt 3 "*rst" 0, Ev.ibloc 3] := by
  decide

/-- C1 (amended): in each of the following cases `worker` returns (its trace ends without a
    call of undefined behaviour) without a sweep step, and its release operations are: none
    when the supply is not found; the supply session when the voltmeter is not found (and the
    log file is never opened); the log file and both sessions when the log file was opened and
    the header write fails, or when `popen` fails; the plot pipe, the log file and both
    sessions when the axis setup fails; always in this (decreasing) order, each once. The case
    of `fopen` returning `NULL` is left out. -/
theorem acquisition_failure (env : Env) (fuel : Nat) :
    (env.ibfind_pps = -1 →
        ∃ tr, worker env fuel = some tr ∧ Ev.undefined ∉ tr ∧ tr.filter in_sweep = []
          ∧ tr.filter is_fopen = [] ∧ tr.filter is_release = [])
      ∧ (env.ibfind_pps ≠ -1 → env.ibfind_vm = -1 →
        ∃ tr, worker env fuel = some tr ∧ Ev.undefined ∉ tr ∧ tr.filter in_sweep = []
          ∧ tr.filter is_fopen = []
          ∧ tr.filter is_release
            = [Ev.ibclr env.ibfind_pps, Ev.ibwrt env.ibfind_pps "*rst" (env.ibwrt_sta 0 26),
                Ev.ibloc env.ibfind_pps])
      ∧ (env.ibfind_pps ≠ -1 → env.ibfind_vm ≠ -1 → env.fopen_vac ≠ 0 →
          (env.header_r < 0 ∨ (0 ≤ env.header_r ∧ env.popen_gp = 0)) →
        ∃ tr, worker env fuel = some tr ∧ Ev.undefined ∉ tr ∧ tr.filter in_sweep = []
          ∧ tr.filter is_release
            = [Ev.fclose env.fopen_vac env.fclose_r,
                Ev.ibclr env.ibfind_vm, Ev.ibwrt env.ibfind_vm "*rst" (env.ibwrt_sta 0 25),
                Ev.ibloc env.ibfind_vm, Ev.ibclr env.ibfind_pps,
                Ev.ibwrt env.ibfind_pps "*rst" (env.ibwrt_sta 0 26), Ev.ibloc env.ibfind_pps])
      ∧ (env.ibfind_pps ≠ -1 → env.ibfind_vm ≠ -1 → env.fopen_vac ≠ 0 → 0 ≤ env.header_r →
          env.popen_gp ≠ 0 → env.axes_r < 0 →
        ∃ tr, worker env fuel = some tr ∧ Ev.undefined ∉ tr ∧ tr.filter in_sweep = []
          ∧ tr.filter is_release
            = [Ev.pclose env.popen_gp env.pclose_r, Ev.fclose env.fopen_vac env.fclose_r,
                Ev.ibclr env.ibfind_vm, Ev.ibwrt env.ibfind_vm "*rst" (env.ibwrt_sta 0 25),
                Ev.ibloc env.ibfind_vm, Ev.ibclr env.ibfind_pps,
                Ev.ibwrt env.ibfind_pps "*rst" (env.ibwrt_sta 0 26), Ev.ibloc env.ibfind_pps]) := by
  have hp := write_all_no_release_pps env env.ibfind_pps
  have hv := write_all_no_release_vm env env.ibfind_vm
  have hwu : ∀ (fd : Int) (n0 : Nat) (cmds : List String),
      Ev.undefined ∉ write_all env fd n0 cmds := by
    intro fd n0 cmds he
    simp only [write_all, List.mem_flatten, List.mem_map] at he
    obtain ⟨l, ⟨p, _, rfl⟩, he⟩ := he
    simp [gpib_write] at he
  have hvm : ∀ p : Ev → Bool, (worker_vm_ibfind env env.ibfind_pps).filter p
      = [Ev.ibclr env.ibfind_pps, Ev.ibwrt env.ibfind_pps "*rst" (env.ibwrt_sta 0 26),
          Ev.sleep 1, Ev.ibloc env.ibfind_pps].filter p := by
    intro p; rfl
  have hfo : ∀ p : Ev → Bool, (worker_vac_fopen env env.ibfind_pps env.ibfind_vm).filter p
      = [Ev.ibclr env.ibfind_vm, Ev.ibwrt env.ibfind_vm "*rst" (env.ibwrt_sta 0 25),
          Ev.sleep 1, Ev.ibloc env.ibfind_vm, Ev.ibclr env.ibfind_pps,
          Ev.ibwrt env.ibfind_pps "*rst" (env.ibwrt_sta 0 26),
          Ev.sleep 1, Ev.ibloc env.ibfind_pps].filter p := by
    intro p; rfl
  have hvm_u : Ev.undefined ∉ worker_vm_ibfind env env.ibfind_pps := by
    simp [worker_vm_ibfind, gpib_write]
  have hhd_u : Ev.undefined ∉ worker_vac_header env env.ibfind_pps env.ibfind_vm
      env.fopen_vac := by
    unfold worker_vac_header worker_vac_fopen worker_vm_ibfind
    simp only [gpib_write]
    split_ifs <;> simp
  have hgs_u : Ev.undefined ∉ worker_gp_settings env env.ibfind_pps env.ibfind_vm
      env.fopen_vac env.popen_gp := by
    unfold worker_gp_settings
    simp only [List.mem_append, not_or]
    refine ⟨⟨by simp, by split_ifs <;> simp⟩, hhd_u⟩
  have hhd_s : (worker_vac_header env env.ibfind_pps env.ibfind_vm env.fopen_vac).filter in_sweep
      = [] := by
    unfold worker_vac_header
    simp only [List.filter_append, hfo]
    split_ifs <;> simp [in_sweep, List.filter]
  have hhd_r : (worker_vac_header env env.ibfind_pps env.ibfind_vm env.fopen_vac).filter
      is_release
      = [Ev.fclose env.fopen_vac env.fclose_r,
          Ev.ibclr env.ibfind_vm, Ev.ibwrt env.ibfind_vm "*rst" (env.ibwrt_sta 0 25),
          Ev.ibloc env.ibfind_vm, Ev.ibclr env.ibfind_pps,
          Ev.ibwrt env.ibfind_pps "*rst" (env.ibwrt_sta 0 26), Ev.ibloc env.ibfind_pps] := by
    unfold worker_vac_header
    simp only [List.filter_append, hfo]
    split_ifs <;> simp [is_release, List.filter]
  have hgs_s : (worker_gp_settings env env.ibfind_pps env.ibfind_vm env.fopen_vac
      env.popen_gp).filter in_sweep = [] := by
    unfold worker_gp_settings
    simp only [List.filter_append, hhd_s]
    split_ifs <;> simp [in_sweep, List.filter]
  refine ⟨?_, ?_, ?_, ?_⟩
  · intro h1
    refine ⟨_, by unfold worker; rw [if_pos h1], ?_, ?_, ?_, ?_⟩ <;>
      simp [in_sweep, is_fopen, is_release, List.filter]
  · intro h1 h2
    refine ⟨_, by unfold worker; rw [if_neg h1, if_pos h2], ?_, ?_, ?_, ?_⟩
    · simp [hvm_u]
    · simp [List.filter_append, hvm, in_sweep, List.filter]
    · simp [List.filter_append, hvm, is_fopen, List.filter]
    · simp [List.filter_append, hvm, is_release, List.filter]
  · intro h1 h2 h3 h4
    rcases h4 with h4 | ⟨h4, h5⟩
    · refine ⟨_, by unfold worker; simp only [if_neg h1, if_neg h2, if_neg h3]; rw [if_pos h4],
        ?_, ?_, ?_⟩
      · simp [hhd_u, hwu]
      · simp [List.filter_append, hhd_s, hp, hv, in_sweep, List.filter]
      · simp [List.filter_append, hhd_r, hp, hv, is_release, List.filter]
    · refine ⟨_, by
          unfold worker
          simp only [if_neg h1, if_neg h2, if_neg h3, if_neg (not_lt.mpr h4)]
          rw [if_pos h5], ?_, ?_, ?_⟩
      · simp [hhd_u, hwu]
      · simp [List.filter_append, hhd_s, hp, hv, in_sweep, List.filter]
      · simp [List.filter_append, hhd_r, hp, hv, is_release, List.filter]
  · intro h1 h2 h3 h4 h5 h6
    have ht := teardown_releases env env.ibfind_pps env.ibfind_vm env.fopen_vac env.popen_gp
    refine ⟨_, by
        unfold worker
        simp only [if_neg h1, if_neg h2, if_neg h3, if_neg (not_lt.mpr h4), if_neg h5]
        rw [if_pos h6], ?_, ?_, ?_⟩
    · simp [hgs_u, hwu]
    · simp [List.filter_append, hgs_s, hp, hv, in_sweep, List.filter]
    · simp only [List.filter_append, ht, hp, hv]
      simp [is_release, List.filter]

/-- Witness for `acquisition_failure`: the voltmeter is not found. -/
theorem acquisition_failure_witness :
    ∃ tr, worker env_vm_missing 0 = some tr ∧ Ev.undefined ∉ tr ∧ tr.filter in_sweep = []
      ∧ tr.filter is_fopen = []
      ∧ tr.filter is_release = [Ev.ibclr 3, Ev.ibwrt 3 "*rst" 0, Ev.ibloc 3] :=
  (acquisition_failure env_vm_missing 0).2.1 (by decide) (by decide)

/-- C10 (code at the failing input): when `fopen` returns `NULL`, the stdio calls of `worker`
    are `fopen` and then `ferror` on the null pointer. -/
theorem ferror_on_null :
    (worker env_fopen_null 0).map (List.filter is_stdio)
      = some [Ev.fopen "d/vac.dat" 0, Ev.ferror 0] := by
  decide

theorem get_time_events (st : TimeSt) (now : Option Timeval) (e : Ev)
    (he : e ∈ (get_time st now).1) : (∃ r, e = Ev.gettimeofday r) ∨ (∃ m, e = Ev.eprintf m) := by
  unfold get_time at he
  split_ifs at he <;> cases now <;> simp at he <;> aesop

theorem gpib_read_buf (fd fd1 : Int) (buf : List Nat) (len : Int) (res : Ibrd) :
    (gpib_read fd buf len res).2.2 = (gpib_read fd1 buf len res).2.2 := rfl

theorem step_stop (env : Env) (pps_fd vm_fd : Int) (vac_fp gp : Nat) (s : Loop)
    (c1 : env.run s.vac_index = 0) :
    step env pps_fd vm_fd vac_fp gp s = ([Ev.get_run (env.run s.vac_index)], none) := by
  unfold step
  simp only [get_run, set_run]
  rw [if_pos c1]

theorem step_bound (env : Env) (pps_fd vm_fd : Int) (vac_fp gp : Nat) (s : Loop)
    (c1 : env.run s.vac_index ≠ 0) (c2 : Dbl.lt VOLTAGE_MAX (voltage_of s.vac_index)) :
    step env pps_fd vm_fd vac_fp gp s
      = ([Ev.get_run (env.run s.vac_index), Ev.set_run 0], none) := by
  unfold voltage_of at c2
  unfold step
  simp only [get_run, set_run]
  rw [if_neg c1, if_pos c2]
  rfl

theorem step_clock_fails (env : Env) (pps_fd vm_fd : Int) (vac_fp gp : Nat) (s : Loop)
    (c1 : env.run s.vac_index ≠ 0) (c2 : ¬ Dbl.lt VOLTAGE_MAX (voltage_of s.vac_index))
    (c3 : Dbl.lt (get_time s.clk (env.clock s.vac_index)).2.1 Dbl.zero) :
    step env pps_fd vm_fd vac_fp gp s
      = (head_events env pps_fd s ++ [Ev.eprintf "# E: Unable to get time", Ev.set_run 0],
          none) := by
  unfold voltage_of at c2
  unfold step
  simp only [get_run, set_run, gpib_write]
  rw [if_neg c1, if_neg c2, if_pos c3]
  simp [head_events, voltage_of]

theorem step_row_fails (env : Env) (pps_fd vm_fd : Int) (vac_fp gp : Nat) (s : Loop)
    (c1 : env.run s.vac_index ≠ 0) (c2 : ¬ Dbl.lt VOLTAGE_MAX (voltage_of s.vac_index))
    (c3 : ¬ Dbl.lt (get_time s.clk (env.clock s.vac_index)).2.1 Dbl.zero)
    (c4 : env.row_r s.vac_index < 0) :
    step env pps_fd vm_fd vac_fp gp s
      = (head_events env pps_fd s ++ query_events env pps_fd vm_fd s
          ++ [row_event env vac_fp s, Ev.eprintf "# E: Unable to print to file", Ev.set_run 0],
          none) := by
  unfold voltage_of at c2
  unfold step
  simp only [get_run, set_run, gpib_write]
  rw [if_neg c1, if_neg c2, if_neg c3, if_pos c4]
  simp only [head_events, query_events, row_event, voltage_of, buf_after,
    gpib_read_buf _ 0]
  simp

theorem step_plot_fails (env : Env) (pps_fd vm_fd : Int) (vac_fp gp : Nat) (s : Loop)
    (c1 : env.run s.vac_index ≠ 0) (c2 : ¬ Dbl.lt VOLTAGE_MAX (voltage_of s.vac_index))
    (c3 : ¬ Dbl.lt (get_time s.clk (env.clock s.vac_index)).2.1 Dbl.zero)
    (c4 : ¬ env.row_r s.vac_index < 0) (c5 : env.plot_r s.vac_index < 0) :
    step env pps_fd vm_fd vac_fp gp s
      = (head_events env pps_fd s ++ query_events env pps_fd vm_fd s
          ++ [row_event env vac_fp s, plot_event env gp s,
              Ev.eprintf "# E: Unable to print to gp", Ev.set_run 0], none) := by
  unfold voltage_of at c2
  unfold step
  simp only [get_run, set_run, gpib_write]
  rw [if_neg c1, if_neg c2, if_neg c3, if_neg c4, if_pos c5]
  simp only [head_events, query_events, row_event, plot_event, voltage_of, buf_after,
    gpib_read_buf _ 0]
  simp

theorem step_next (env : Env) (pps_fd vm_fd : Int) (vac_fp gp : Nat) (s : Loop)
    (c1 : env.run s.vac_index ≠ 0) (c2 : ¬ Dbl.lt VOLTAGE_MAX (voltage_of s.vac_index))
    (c3 : ¬ Dbl.lt (get_time s.clk (env.clock s.vac_index)).2.1 Dbl.zero)
    (c4 : ¬ env.row_r s.vac_index < 0) (c5 : ¬ env.plot_r s.vac_index < 0) :
    step env pps_fd vm_fd vac_fp gp s
      = (head_events env pps_fd s ++ query_events env pps_fd vm_fd s
          ++ [row_event env vac_fp s, plot_event env gp s], some (next_state env s)) := by
  unfold voltage_of at c2
  unfold step
  simp only [get_run, set_run, gpib_write]
  rw [if_neg c1, if_neg c2, if_neg c3, if_neg c4, if_neg c5]
  simp only [head_events, query_events, row_event, plot_event, next_state, voltage_of,
    buf_after, gpib_read_buf _ 0]
  simp

/-- The six ways through one loop test and body. -/
theorem step_cases (env : Env) (pps_fd vm_fd : Int) (vac_fp gp : Nat) (s : Loop) :
    step env pps_fd vm_fd vac_fp gp s = ([Ev.get_run (env.run s.vac_index)], none)
      ∨ step env pps_fd vm_fd vac_fp gp s
          = ([Ev.get_run (env.run s.vac_index), Ev.set_run 0], none)
      ∨ step env pps_fd vm_fd vac_fp gp s
          = (head_events env pps_fd s ++ [Ev.eprintf "# E: Unable to get time", Ev.set_run 0],
              none)
      ∨ (env.row_r s.vac_index < 0 ∧ step env pps_fd vm_fd vac_fp gp s
          = (head_events env pps_fd s ++ query_events env pps_fd vm_fd s
              ++ [row_event env vac_fp s, Ev.eprintf "# E: Unable to print to file",
                  Ev.set_run 0], none))
      ∨ (¬ env.row_r s.vac_index < 0 ∧ step env pps_fd vm_fd vac_fp gp s
          = (head_events env pps_fd s ++ query_events env pps_fd vm_fd s
              ++ [row_event env vac_fp s, plot_event env gp s,
                  Ev.eprintf "# E: Unable to print to gp", Ev.set_run 0], none))
      ∨ (¬ env.row_r s.vac_index < 0 ∧ step env pps_fd vm_fd vac_fp gp s
          = (head_events env pps_fd s ++ query_events env pps_fd vm_fd s
              ++ [row_event env vac_fp s, plot_event env gp s], some (next_state env s))) := by
  by_cases c1 : env.run s.vac_index = 0
  · exact Or.inl (step_stop env pps_fd vm_fd vac_fp gp s c1)
  by_cases c2 : Dbl.lt VOLTAGE_MAX (voltage_of s.vac_index)
  · exact Or.inr (Or.inl (step_bound env pps_fd vm_fd vac_fp gp s c1 c2))
  by_cases c3 : Dbl.lt (get_time s.clk (env.clock s.vac_index)).2.1 Dbl.zero
  · exact Or.inr (Or.inr (Or.inl (step_clock_fails env pps_fd vm_fd vac_fp gp s c1 c2 c3)))
  by_cases c4 : env.row_r s.vac_index < 0
  · exact Or.inr (Or.inr (Or.inr (Or.inl
      ⟨c4, step_row_fails env pps_fd vm_fd vac_fp gp s c1 c2 c3 c4⟩)))
  by_cases c5 : env.plot_r s.vac_index < 0
  · exact Or.inr (Or.inr (Or.inr (Or.inr (Or.inl
      ⟨c4, step_plot_fails env pps_fd vm_fd vac_fp gp s c1 c2 c3 c4 c5⟩))))
  · exact Or.inr (Or.inr (Or.inr (Or.inr (Or.inr
      ⟨c4, step_next env pps_fd vm_fd vac_fp gp s c1 c2 c3 c4 c5⟩))))

theorem row_not_in_head (env : Env) (pps_fd : Int) (s : Loop) (e : Ev)
    (he : e ∈ head_events env pps_fd s) : row_index e = none := by
  unfold head_events at he
  simp only [List.mem_append, List.mem_cons, List.not_mem_nil, or_false] at he
  rcases he with (h | h | h) | h
  · rw [h]; rfl
  · rw [h]; rfl
  · rw [h]; rfl
  · rcases get_time_events _ _ _ h with ⟨_, h⟩ | ⟨_, h⟩ <;> rw [h] <;> rfl

theorem row_not_in_queries (env : Env) (pps_fd vm_fd : Int) (s : Loop) (e : Ev)
    (he : e ∈ query_events env pps_fd vm_fd s) : row_index e = none := by
  unfold query_events gpib_read at he
  simp only [List.mem_append, List.mem_cons, List.not_mem_nil, or_false] at he
  rcases he with ((((h | h) | h) | h) | h) | h <;> rw [h] <;> rfl

theorem step_row_failure (env : Env) (pps_fd vm_fd : Int) (vac_fp gp : Nat) (s : Loop)
    (f : Nat) (k : Int) (tm : Dbl) (pv pc vm : Option Dbl) (r : Int)
    (hmem : Ev.fprintf_row f k tm pv pc vm r ∈ (step env pps_fd vm_fd vac_fp gp s).1)
    (hr : r < 0) :
    (step env pps_fd vm_fd vac_fp gp s).2 = none
      ∧ ∃ t0, (step env pps_fd vm_fd vac_fp gp s).1
          = t0 ++ [Ev.fprintf_row f k tm pv pc vm r, Ev.eprintf "# E: Unable to print to file",
              Ev.set_run 0] := by
  have hh := row_not_in_head env pps_fd s (Ev.fprintf_row f k tm pv pc vm r)
  have hq := row_not_in_queries env pps_fd vm_fd s (Ev.fprintf_row f k tm pv pc vm r)
  have hrow : ∀ c : Int, Ev.fprintf_row f k tm pv pc vm r = row_event env vac_fp s →
      ¬ env.row_r s.vac_index < 0 → False := by
    intro _ h hc
    unfold row_event at h
    injection h with _ _ _ _ _ _ h7
    rw [← h7] at hc
    exact hc hr
  rcases step_cases env pps_fd vm_fd vac_fp gp s with h | h | h | ⟨c, h⟩ | ⟨c, h⟩ | ⟨c, h⟩ <;>
    rw [h] at hmem ⊢ <;>
    simp only [List.mem_append, List.mem_cons, List.not_mem_nil, or_false, reduceCtorEq,
      false_or] at hmem
  · have := hh hmem; simp [row_index] at this
  · rcases hmem with (hmem | hmem) | hmem
    · have := hh hmem; simp [row_index] at this
    · have := hq hmem; simp [row_index] at this
    · exact ⟨rfl, _, by rw [hmem]⟩
  · rcases hmem with (hmem | hmem) | hmem
    · have := hh hmem; simp [row_index] at this
    · have := hq hmem; simp [row_index] at this
    · rcases hmem with hmem | hmem
      · exact (hrow 0 hmem c).elim
      · simp [plot_event] at hmem
  · rcases hmem with (hmem | hmem) | hmem
    · have := hh hmem; simp [row_index] at this
    · have := hq hmem; simp [row_index] at this
    · rcases hmem with hmem | hmem
      · exact (hrow 0 hmem c).elim
      · simp [plot_event] at hmem

theorem sweep_row_failure (env : Env) (pps_fd vm_fd : Int) (vac_fp gp : Nat)
    (f : Nat) (k : Int) (tm : Dbl) (pv pc vm : Option Dbl) (r : Int) (hr : r < 0) :
    ∀ (fuel : Nat) (s : Loop) (t : List Ev), sweep env pps_fd vm_fd vac_fp gp fuel s = some t →
      Ev.fprintf_row f k tm pv pc vm r ∈ t →
      ∃ t0, t = t0 ++ [Ev.fprintf_row f k tm pv pc vm r,
        Ev.eprintf "# E: Unable to print to file", Ev.set_run 0] := by
  intro fuel
  induction fuel with
  | zero => intro s t h; simp [sweep] at h
  | succ n ih =>
    intro s t h hmem
    unfold sweep at h
    have hs := step_row_failure env pps_fd vm_fd vac_fp gp s f k tm pv pc vm r
    rcases hst : step env pps_fd vm_fd vac_fp gp s with ⟨evs, _ | s1⟩
    · rw [hst] at h hs
      simp only [Option.some.injEq] at h
      rw [← h] at hmem ⊢
      exact (hs hmem hr).2
    · rw [hst] at h hs
      simp only [Option.map_eq_some'] at h
      obtain ⟨t1, ht1, rfl⟩ := h
      rcases List.mem_append.mp hmem with hm | hm
      · have := (hs hm hr).1
        simp at this
      · obtain ⟨t0, ht0⟩ := ih s1 t1 ht1 hm
        exact ⟨evs ++ t0, by rw [ht0, List.append_assoc]⟩

theorem loop_event_not_command (e : Ev) (h : loop_event e = true) :
    is_command "voltage 0" e = false ∧ is_command "output 0" e = false := by
  cases e <;> simp_all [loop_event, is_command]

theorem acquisition_commands (env : Env) :
    (acquisition env).filter (is_command "voltage 0") = []
      ∧ (acquisition env).filter (is_command "output 0")
          = [Ev.ibwrt env.ibfind_pps "output 0" (env.ibwrt_sta 0 0)]
      ∧ ∀ e ∈ acquisition env, row_index e = none := by
  refine ⟨?_, ?_, ?_⟩
  · simp [acquisition, write_all, pps_init, vm_init, gpib_write, List.enum, List.enumFrom,
      is_command]
  · simp [acquisition, write_all, pps_init, vm_init, gpib_write, List.enum, List.enumFrom,
      is_command, List.filter]
  · intro e he
    simp only [acquisition, write_all, pps_init, vm_init, gpib_write, List.enum, List.enumFrom,
      List.map, List.flatten, List.mem_append, List.mem_cons, List.not_mem_nil, or_false,
      List.append_nil] at he
    rcases he with ((h | h) | h) | h
    · rcases h with h | h <;> rw [h] <;> rfl
    · repeat (first | (rcases h with h | h; · rw [h]; rfl) | (rw [h]; rfl))
    · repeat (first | (rcases h with h | h; · rw [h]; rfl) | (rw [h]; rfl))
    · repeat (first | (rcases h with h | h; · rw [h]; rfl) | (rw [h]; rfl))

/-- C4: when all four resources were acquired, the run of `worker` is: events `a` of the
    acquisition and the sweep loop, then the write of `output 0` and the write of `voltage 0`
    to the supply, then `pclose` of the plot pipe, then the remaining teardown. `a` holds no
    release and no write of `voltage 0`, and its only `output 0` is the first setup command;
    the remaining teardown holds neither command. So the shutdown action is issued exactly once
    on every way of leaving the loop, directly before the first release. When the write of a
    row to the log file fails, `a` ends with that write, the report and `set_run(0)`, so the
    shutdown action directly follows. -/
theorem shutdown_once (env : Env) (fuel : Nat) (h : Acquired env) (hf : 102 ≤ fuel) :
    ∃ a rest, worker env fuel
        = some (a ++ [Ev.ibwrt env.ibfind_pps "output 0" (env.ibwrt_sta 0 23),
            Ev.ibwrt env.ibfind_pps "voltage 0" (env.ibwrt_sta 0 24),
            Ev.pclose env.popen_gp env.pclose_r] ++ rest)
      ∧ a.filter is_release = []
      ∧ a.filter (is_command "voltage 0") = []
      ∧ a.filter (is_command "output 0")
          = [Ev.ibwrt env.ibfind_pps "output 0" (env.ibwrt_sta 0 0)]
      ∧ rest.filter (is_command "voltage 0") = []
      ∧ rest.filter (is_command "output 0") = []
      ∧ ∀ f k tm pv pc vm r, Ev.fprintf_row f k tm pv pc vm r ∈ a → r < 0 →
          ∃ a0, a = a0 ++ [Ev.fprintf_row f k tm pv pc vm r,
            Ev.eprintf "# E: Unable to print to file", Ev.set_run 0] := by
  obtain ⟨loop, hl⟩ := sweep_terminates env env.ibfind_pps env.ibfind_vm env.fopen_vac
    env.popen_gp fuel ⟨0, buf_at_loop env, TimeSt.init⟩ (by simp) (by simpa using hf)
  have hle := sweep_loop_event env _ _ _ _ fuel _ loop hl
  have hcmd : loop.filter (is_command "voltage 0") = []
      ∧ loop.filter (is_command "output 0") = [] := by
    rw [List.all_eq_true] at hle
    constructor <;> rw [List.filter_eq_nil_iff] <;> intro e he
    · simp [(loop_event_not_command e (hle e he)).1]
    · simp [(loop_event_not_command e (hle e he)).2]
  obtain ⟨ha1, ha2, ha3⟩ := acquisition_commands env
  refine ⟨acquisition env ++ loop,
    (if env.pclose_r = -1 then [Ev.eprintf "# E: Unable to close gnuplot pipe"] else [])
      ++ worker_vac_header env env.ibfind_pps env.ibfind_vm env.fopen_vac, ?_, ?_, ?_, ?_, ?_,
    ?_, ?_⟩
  · rw [worker_acquired env fuel h, hl]
    simp [shutdown, gpib_write, worker_gp_settings]
  · rw [List.filter_append, acquisition_no_release, filter_release_loop loop hle]; rfl
  · rw [List.filter_append, ha1, hcmd.1]; rfl
  · rw [List.filter_append, ha2, hcmd.2]; rfl
  · unfold worker_vac_header worker_vac_fopen worker_vm_ibfind
    simp only [gpib_write]
    split_ifs <;> simp [is_command, List.filter]
  · unfold worker_vac_header worker_vac_fopen worker_vm_ibfind
    simp only [gpib_write]
    split_ifs <;> simp [is_command, List.filter]
  · intro f k tm pv pc vm r hmem hr
    rcases List.mem_append.mp hmem with hm | hm
    · have := ha3 _ hm
      simp [row_index] at this
    · obtain ⟨t0, ht0⟩ := sweep_row_failure env _ _ _ _ f k tm pv pc vm r hr fuel _ loop hl hm
      exact ⟨acquisition env ++ t0, by rw [ht0, List.append_assoc]⟩

/-- Witness for `shutdown_once`: the write of the row with index 1 fails. -/
theorem shutdown_once_witness :
    ∃ a rest, worker env_row_fails 102
        = some (a ++ [Ev.ibwrt env_row_fails.ibfind_pps "output 0" (env_row_fails.ibwrt_sta 0 23),
            Ev.ibwrt env_row_fails.ibfind_pps "voltage 0" (env_row_fails.ibwrt_sta 0 24),
            Ev.pclose env_row_fails.popen_gp env_row_fails.pclose_r] ++ rest)
      ∧ a.filter is_release = []
      ∧ a.filter (is_command "voltage 0") = []
      ∧ a.filter (is_command "output 0")
          = [Ev.ibwrt env_row_fails.ibfind_pps "output 0" (env_row_fails.ibwrt_sta 0 0)]
      ∧ rest.filter (is_command "voltage 0") = []
      ∧ rest.filter (is_command "output 0") = []
      ∧ ∀ f k tm pv pc vm r, Ev.fprintf_row f k tm pv pc vm r ∈ a → r < 0 →
          ∃ a0, a = a0 ++ [Ev.fprintf_row f k tm pv pc vm r,
            Ev.eprintf "# E: Unable to print to file", Ev.set_run 0] :=
  shutdown_once env_row_fails 102 (by decide) (by decide)

/-! ### the full sweep -/

set_option maxRecDepth 1000000 in
theorem voltage_table : ∀ i : Fin 101,
    ¬ Dbl.lt VOLTAGE_MAX (voltage_of i.val) ∧ fmt3 (voltage_of i.val) = fmtMilli (100 * i.val) := by
  decide

theorem voltage_head (x : String) : ("voltage " ++ x).data.head? = some 'v' := by
  simp [String.data_append]

theorem voltage_not_query (x : String) :
    "voltage " ++ x ≠ "measure:voltage?" ∧ "voltage " ++ x ≠ "measure:current?"
      ∧ "voltage " ++ x ≠ "read?" := by
  refine ⟨?_, ?_, ?_⟩ <;> intro h <;>
    have := congrArg (fun s : String => s.data.head?) h <;>
    simp only [voltage_head] at this <;> revert this <;> decide

theorem get_time_views (st : TimeSt) (now : Option Timeval) (fd : Int) :
    (get_time st now).1.filterMap row_index = []
      ∧ (get_time st now).1.filterMap (command_to fd) = []
      ∧ (get_time st now).1.filter is_set_run = [] := by
  unfold get_time
  split_ifs <;> cases now <;> exact ⟨rfl, rfl, rfl⟩

theorem full_step_views (env : Env) (pps_fd vm_fd : Int) (vac_fp gp : Nat) (s : Loop) :
    (head_events env pps_fd s ++ query_events env pps_fd vm_fd s
        ++ [row_event env vac_fp s, plot_event env gp s]).filterMap row_index
        = [(s.vac_index : Int)]
      ∧ (head_events env pps_fd s ++ query_events env pps_fd vm_fd s
        ++ [row_event env vac_fp s, plot_event env gp s]).filterMap (command_to pps_fd)
        = ["voltage " ++ fmt3 (voltage_of s.vac_index)]
      ∧ (head_events env pps_fd s ++ query_events env pps_fd vm_fd s
        ++ [row_event env vac_fp s, plot_event env gp s]).filter is_set_run = [] := by
  obtain ⟨g1, g2, g3⟩ := get_time_views s.clk (env.clock s.vac_index) pps_fd
  obtain ⟨v1, v2, v3⟩ := voltage_not_query (fmt3 (voltage_of s.vac_index))
  refine ⟨?_, ?_, ?_⟩
  · simp [head_events, query_events, gpib_read, row_event, plot_event, List.filterMap_append,
      List.filterMap_cons, g1, row_index]
  · simp [head_events, query_events, gpib_read, row_event, plot_event, List.filterMap_append,
      List.filterMap_cons, g2, command_to, v1, v2, v3]
  · simp [head_events, query_events, gpib_read, row_event, plot_event, List.filter_append,
      List.filter_cons, g3, is_set_run]

theorem sweep_full (env : Env) (pps_fd vm_fd : Int) (vac_fp gp : Nat)
    (hrun : ∀ k, k ≤ 101 → env.run k ≠ 0)
    (hclk : ∀ k, k ≤ 100 → ¬ Dbl.lt (vac_time_at env k) Dbl.zero)
    (hrow : ∀ k, k ≤ 100 → 0 ≤ env.row_r k) (hplot : ∀ k, k ≤ 100 → 0 ≤ env.plot_r k) :
    ∀ (d i fuel : Nat) (s : Loop), i + d = 101 → s.vac_index = i → s.clk = clk_at env i →
      102 ≤ i + fuel →
      ∃ t, sweep env pps_fd vm_fd vac_fp gp fuel s = some t
        ∧ t.filterMap row_index = (List.range' i d).map (fun j : Nat => (j : Int))
        ∧ t.filterMap (command_to pps_fd) = (List.range' i d).map voltage_text
        ∧ t.filter is_set_run = [Ev.set_run 0]
        ∧ ∃ t0, t = t0 ++ [Ev.get_run (env.run 101), Ev.set_run 0] := by
  intro d
  induction d with
  | zero =>
    intro i fuel s hi hs _ hf
    have h101 : s.vac_index = 101 := by omega
    obtain ⟨n, rfl⟩ : ∃ n, fuel = n + 1 := ⟨fuel - 1, by omega⟩
    have hb := step_bound env pps_fd vm_fd vac_fp gp s (by rw [h101]; exact hrun 101 (le_refl _))
      (by rw [h101]; exact voltage_101)
    refine ⟨[Ev.get_run (env.run 101), Ev.set_run 0], ?_, ?_, ?_, ?_, ⟨[], rfl⟩⟩
    · unfold sweep
      rw [hb, h101]
    · rfl
    · rfl
    · rfl
  | succ d ih =>
    intro i fuel s hi hs hc hf
    have hle : i ≤ 100 := by omega
    obtain ⟨n, rfl⟩ : ∃ n, fuel = n + 1 := ⟨fuel - 1, by omega⟩
    obtain ⟨hv, hfmt⟩ := voltage_table ⟨i, by omega⟩
    simp only at hv hfmt
    have hn := step_next env pps_fd vm_fd vac_fp gp s (by rw [hs]; exact hrun i (by omega))
      (by rw [hs]; exact hv)
      (by rw [hs, hc]; exact hclk i hle)
      (by rw [hs]; exact not_lt.mpr (hrow i hle))
      (by rw [hs]; exact not_lt.mpr (hplot i hle))
    obtain ⟨t, ht, h1, h2, h3, t0, h4⟩ := ih (i + 1) n (next_state env s) (by omega)
      (by simp [next_state, hs]) (by simp [next_state, hs, hc, clk_at]) (by omega)
    obtain ⟨p1, p2, p3⟩ := full_step_views env pps_fd vm_fd vac_fp gp s
    refine ⟨_, by unfold sweep; rw [hn]; simp only [ht]; rfl, ?_, ?_, ?_, ?_⟩
    · rw [List.filterMap_append, p1, h1, hs]
      simp [List.range'_succ]
    · rw [List.filterMap_append, p2, h2, hs, hfmt]
      simp [List.range'_succ, voltage_text]
    · rw [List.filter_append, p3, h3]
      rfl
    · exact ⟨_, by rw [h4]; exact (List.append_assoc _ _ _).symm⟩

set_option maxRecDepth 1000000 in
theorem voltage_texts : (List.range 101).map voltage_text = sweep_commands := by
  decide

set_option maxRecDepth 100000 in
/-- C3 (counterexample): all four resources are acquired, `get_run()` is nonzero at every loop
    test, every clock read succeeds and no row or plot write fails; the second clock reading
    lies one second before the first, `get_time` returns a negative value, and the loop is left
    after the single row with index 0. -/
theorem clock_stepping_back_ends_sweep :
    Acquired env_clock_back ∧ (∀ k, env_clock_back.run k ≠ 0)
      ∧ (∀ k, (env_clock_back.clock k).isSome = true)
      ∧ (∀ k, 0 ≤ env_clock_back.row_r k ∧ 0 ≤ env_clock_back.plot_r k)
      ∧ (worker env_clock_back 102).map (List.filterMap row_index) = some [0]
      ∧ (worker env_clock_back 102).map (List.filter is_set_run) = some [Ev.set_run 0] := by
  refine ⟨by decide, fun _ => by show (1 : Int) ≠ 0; decide, ?_,
    fun _ => by show (0 : Int) ≤ 40 ∧ (0 : Int) ≤ 60; decide, by decide, by decide⟩
  intro k
  by_cases h : k = 0
  · subst h; rfl
  · simp [env_clock_back, h]

/-- C3 (amended): with `VOLTAGE_STEP = 0.1` and `VOLTAGE_MAX = 10.0`, when all four resources
    are acquired, `get_run()` is nonzero at every loop test, `get_time` returns no negative
    value in any step, and no row or plot write fails, the sweep loop writes exactly the rows
    with indices 0, 1, ..., 100, the commands it sends to the supply besides the measurement
    queries are exactly `voltage 0.000`, `voltage 0.100`, ..., `voltage 10.000` (at step `i`
    the text of `i * 0.1`), and the loop ends with the loop test at index 101 followed by the
    only call `set_run(0)`, no voltage being sent for index 101. -/
theorem sweep_runs_101_steps (env : Env) (fuel : Nat) (hA : Acquired env) (hf : 102 ≤ fuel)
    (hrun : ∀ k, k ≤ 101 → env.run k ≠ 0)
    (hclk : ∀ k, k ≤ 100 → ¬ Dbl.lt (vac_time_at env k) Dbl.zero)
    (hrow : ∀ k, k ≤ 100 → 0 ≤ env.row_r k) (hplot : ∀ k, k ≤ 100 → 0 ≤ env.plot_r k) :
    ∃ loop, worker env fuel
        = some (acquisition env ++ loop ++ shutdown env env.ibfind_pps
          ++ worker_gp_settings env env.ibfind_pps env.ibfind_vm env.fopen_vac env.popen_gp)
      ∧ loop.filterMap row_index = (List.range 101).map (fun j : Nat => (j : Int))
      ∧ loop.filterMap (command_to env.ibfind_pps) = sweep_commands
      ∧ loop.filter is_set_run = [Ev.set_run 0]
      ∧ ∃ t0, loop = t0 ++ [Ev.get_run (env.run 101), Ev.set_run 0] := by
  obtain ⟨t, ht, h1, h2, h3, h4⟩ := sweep_full env env.ibfind_pps env.ibfind_vm env.fopen_vac
    env.popen_gp hrun hclk hrow hplot 101 0 fuel ⟨0, buf_at_loop env, TimeSt.init⟩ (by omega)
    rfl rfl (by omega)
  refine ⟨t, by rw [worker_acquired env fuel hA, ht]; rfl, ?_, ?_, h3, h4⟩
  · rw [h1, List.range_eq_range']
  · rw [h2, ← voltage_texts, List.range_eq_range']

set_option maxRecDepth 1000000 in
/-- Witness for `sweep_runs_101_steps`: the environment in which everything succeeds. -/
theorem sweep_runs_101_steps_witness :
    ∃ loop, worker env_ok 102
        = some (acquisition env_ok ++ loop ++ shutdown env_ok env_ok.ibfind_pps
          ++ worker_gp_settings env_ok env_ok.ibfind_pps env_ok.ibfind_vm env_ok.fopen_vac
            env_ok.popen_gp)
      ∧ loop.filterMap row_index = (List.range 101).map (fun j : Nat => (j : Int))
      ∧ loop.filterMap (command_to env_ok.ibfind_pps) = sweep_commands
      ∧ loop.filter is_set_run = [Ev.set_run 0]
      ∧ ∃ t0, loop = t0 ++ [Ev.get_run (env_ok.run 101), Ev.set_run 0] :=
  sweep_runs_101_steps env_ok 102 (by decide) (by decide) (by decide) (by decide) (by decide)
    (by decide)

/-! ### instrument queries -/

set_option maxRecDepth 100000 in
/-- C5 (counterexample): all three queries of the first step fail on the bus (`ERR` status on
    each write and read, no byte received); the step still writes its row with the readings
    `atof("")`, `set_run` is not called, and the next step is started. -/
theorem bus_failure_does_not_abort :
    (worker env_bus_down 3).map (fun tr => (tr.filter in_sweep).take 9)
      = some [Ev.get_run 1, Ev.usleep 1000000, Ev.gettimeofday (some ⟨100, 5⟩),
          Ev.ibrd 3 100 32768 0, Ev.ibrd 3 100 32768 0, Ev.ibrd 4 100 32768 0,
          Ev.fprintf_row 1 0 Dbl.zero (some Dbl.zero) (some Dbl.zero) (some Dbl.zero) 40,
          Ev.fprintf_plot 2 0 Dbl.zero 60, Ev.get_run 1]
      ∧ (worker env_bus_down 3).map (fun tr => tr.filter is_set_run) = some []
      ∧ (worker env_bus_down 3).map
          (fun tr => tr.filter (is_command "measure:voltage?"))
        = some [Ev.ibwrt 3 "measure:voltage?" 32768, Ev.ibwrt 3 "measure:voltage?" 256] := by
  decide

theorem get_time_control (st : TimeSt) (now : Option Timeval) :
    (get_time st now).1.filterMap control_view = (get_time st now).1 := by
  unfold get_time
  split_ifs <;> cases now <;> rfl

theorem step_ignores_bus (env : Env) (sta : Nat → Nat → Int) (res : Nat → Nat → Ibrd)
    (pps_fd vm_fd : Int) (vac_fp gp : Nat) (s s1 : Loop)
    (hi : s1.vac_index = s.vac_index) (hc : s1.clk = s.clk) :
    (step (with_bus env sta res) pps_fd vm_fd vac_fp gp s1).1.filterMap control_view
        = (step env pps_fd vm_fd vac_fp gp s).1.filterMap control_view
      ∧ (((step (with_bus env sta res) pps_fd vm_fd vac_fp gp s1).2 = none
          ∧ (step env pps_fd vm_fd vac_fp gp s).2 = none)
        ∨ ∃ n1 n, (step (with_bus env sta res) pps_fd vm_fd vac_fp gp s1).2 = some n1
          ∧ (step env pps_fd vm_fd vac_fp gp s).2 = some n
          ∧ n1.vac_index = n.vac_index ∧ n1.clk = n.clk) := by
  have hhead : ∀ (e : Env) (t : Loop), (head_events e pps_fd t).filterMap control_view
      = [Ev.get_run (e.run t.vac_index), Ev.usleep STEP_DELAY]
        ++ (get_time t.clk (e.clock t.vac_index)).1 := by
    intro e t
    simp [head_events, List.filterMap_append, get_time_control, control_view,
      List.filterMap_cons]
  have hq : ∀ (e : Env) (t : Loop), (query_events e pps_fd vm_fd t).filterMap control_view
      = [] := by
    intro e t
    simp [query_events, gpib_read, List.filterMap_append, control_view, List.filterMap_cons]
  have hrow : control_view (row_event (with_bus env sta res) vac_fp s1)
      = control_view (row_event env vac_fp s) := by
    simp [row_event, control_view, with_bus, hi, hc]
  have hplot : plot_event (with_bus env sta res) gp s1 = plot_event env gp s := by
    simp [plot_event, with_bus, hi, hc]
  have hrv : ∀ (e : Env) (t : Loop), ∃ x, control_view (row_event e vac_fp t) = some x := by
    intro e t; exact ⟨_, rfl⟩
  have hpv : ∀ (e : Env) (t : Loop),
      control_view (plot_event e gp t) = some (plot_event e gp t) := by
    intro e t; rfl
  by_cases c1 : env.run s.vac_index = 0
  · have c1' : (with_bus env sta res).run s1.vac_index = 0 := by rw [hi]; exact c1
    rw [step_stop _ _ _ _ _ _ c1, step_stop _ _ _ _ _ _ c1']
    simp [with_bus, hi]
  have c1' : (with_bus env sta res).run s1.vac_index ≠ 0 := by rw [hi]; exact c1
  by_cases c2 : Dbl.lt VOLTAGE_MAX (voltage_of s.vac_index)
  · have c2' : Dbl.lt VOLTAGE_MAX (voltage_of s1.vac_index) := by rw [hi]; exact c2
    rw [step_bound _ _ _ _ _ _ c1 c2, step_bound _ _ _ _ _ _ c1' c2']
    simp [with_bus, hi]
  have c2' : ¬ Dbl.lt VOLTAGE_MAX (voltage_of s1.vac_index) := by rw [hi]; exact c2
  by_cases c3 : Dbl.lt (get_time s.clk (env.clock s.vac_index)).2.1 Dbl.zero
  · have c3' : Dbl.lt (get_time s1.clk ((with_bus env sta res).clock s1.vac_index)).2.1
        Dbl.zero := by rw [hi, hc]; exact c3
    rw [step_clock_fails _ _ _ _ _ _ c1 c2 c3, step_clock_fails _ _ _ _ _ _ c1' c2' c3']
    simp only [List.filterMap_append, hhead]
    simp [with_bus, hi, hc]
  have c3' : ¬ Dbl.lt (get_time s1.clk ((with_bus env sta res).clock s1.vac_index)).2.1
      Dbl.zero := by rw [hi, hc]; exact c3
  by_cases c4 : env.row_r s.vac_index < 0
  · have c4' : (with_bus env sta res).row_r s1.vac_index < 0 := by rw [hi]; exact c4
    rw [step_row_fails _ _ _ _ _ _ c1 c2 c3 c4, step_row_fails _ _ _ _ _ _ c1' c2' c3' c4']
    simp only [List.filterMap_append, hhead, hq, List.filterMap_cons, hrow]
    simp [with_bus, hi, hc]
  have c4' : ¬ (with_bus env sta res).row_r s1.vac_index < 0 := by rw [hi]; exact c4
  by_cases c5 : env.plot_r s.vac_index < 0
  · have c5' : (with_bus env sta res).plot_r s1.vac_index < 0 := by rw [hi]; exact c5
    rw [step_plot_fails _ _ _ _ _ _ c1 c2 c3 c4 c5,
      step_plot_fails _ _ _ _ _ _ c1' c2' c3' c4' c5']
    simp only [List.filterMap_append, hhead, hq, List.filterMap_cons, hrow, hplot]
    simp [with_bus, hi, hc]
  · have c5' : ¬ (with_bus env sta res).plot_r s1.vac_index < 0 := by rw [hi]; exact c5
    rw [step_next _ _ _ _ _ _ c1 c2 c3 c4 c5, step_next _ _ _ _ _ _ c1' c2' c3' c4' c5']
    simp only [List.filterMap_append, hhead, hq, List.filterMap_cons, hrow, hplot]
    simp [with_bus, hi, hc, next_state]

theorem sweep_ignores_bus (env : Env) (sta : Nat → Nat → Int) (res : Nat → Nat → Ibrd)
    (pps_fd vm_fd : Int) (vac_fp gp : Nat) :
    ∀ (fuel : Nat) (s s1 : Loop), s1.vac_index = s.vac_index → s1.clk = s.clk →
      (sweep (with_bus env sta res) pps_fd vm_fd vac_fp gp fuel s1).map
          (List.filterMap control_view)
        = (sweep env pps_fd vm_fd vac_fp gp fuel s).map (List.filterMap control_view) := by
  intro fuel
  induction fuel with
  | zero => intro s s1 _ _; rfl
  | succ n ih =>
    intro s s1 hi hc
    obtain ⟨hev, hnext⟩ := step_ignores_bus env sta res pps_fd vm_fd vac_fp gp s s1 hi hc
    unfold sweep
    rcases hst : step env pps_fd vm_fd vac_fp gp s with ⟨evs, o⟩
    rcases hst1 : step (with_bus env sta res) pps_fd vm_fd vac_fp gp s1 with ⟨evs1, o1⟩
    rw [hst, hst1] at hev hnext
    simp only at hev hnext
    rcases hnext with ⟨h1, h2⟩ | ⟨n1, n2, h1, h2, h3, h4⟩
    · subst h1 h2
      simp [hev]
    · subst h1 h2
      have := ih n2 n1 h3 h4
      simp only [Option.map_map]
      cases hs : sweep env pps_fd vm_fd vac_fp gp n n2 with
      | none =>
        rw [hs] at this
        simp only [Option.map_none', Option.map_eq_none'] at this
        simp [this]
      | some t =>
        rw [hs] at this
        simp only [Option.map_some', Option.map_eq_some'] at this
        obtain ⟨t1, ht1, ht2⟩ := this
        simp [ht1, List.filterMap_append, hev, ht2]

theorem write_all_control (env : Env) (fd : Int) (n0 : Nat) (cmds : List String) :
    (write_all env fd n0 cmds).filterMap control_view = [] := by
  rw [List.filterMap_eq_nil_iff]
  intro e he
  simp only [write_all, List.mem_flatten, List.mem_map] at he
  obtain ⟨l, ⟨p, _, rfl⟩, he⟩ := he
  simp only [gpib_write, List.mem_singleton] at he
  rw [he]; rfl

theorem teardown_control (env : Env) (sta : Nat → Nat → Int) (res : Nat → Nat → Ibrd)
    (pps_fd vm_fd : Int) (vac_fp gp : Nat) :
    (worker_vm_ibfind (with_bus env sta res) pps_fd).filterMap control_view
        = (worker_vm_ibfind env pps_fd).filterMap control_view
      ∧ (worker_vac_fopen (with_bus env sta res) pps_fd vm_fd).filterMap control_view
        = (worker_vac_fopen env pps_fd vm_fd).filterMap control_view
      ∧ (worker_vac_header (with_bus env sta res) pps_fd vm_fd vac_fp).filterMap control_view
        = (worker_vac_header env pps_fd vm_fd vac_fp).filterMap control_view
      ∧ (worker_gp_settings (with_bus env sta res) pps_fd vm_fd vac_fp gp).filterMap
          control_view
        = (worker_gp_settings env pps_fd vm_fd vac_fp gp).filterMap control_view := by
  have h1 : (worker_vm_ibfind (with_bus env sta res) pps_fd).filterMap control_view
      = (worker_vm_ibfind env pps_fd).filterMap control_view := rfl
  have h2 : (worker_vac_fopen (with_bus env sta res) pps_fd vm_fd).filterMap control_view
      = (worker_vac_fopen env pps_fd vm_fd).filterMap control_view := rfl
  have h3 : (worker_vac_header (with_bus env sta res) pps_fd vm_fd vac_fp).filterMap
      control_view = (worker_vac_header env pps_fd vm_fd vac_fp).filterMap control_view := by
    unfold worker_vac_header
    simp only [List.filterMap_append, h2]
    rfl
  refine ⟨h1, h2, h3, ?_⟩
  unfold worker_gp_settings
  simp only [List.filterMap_append, h3]
  rfl

/-- C5 (amended): no outcome of a call on the instrument bus changes what `worker` does
    besides the bus traffic itself and the readings it logs. For any other statuses of the
    writes and any other statuses and bytes of the reads, the trace without the bus calls and
    with the readings blanked is the same: the same loop tests, `set_run` calls, clock reads,
    rows (index, time, result), plot writes and releases. So a failing query never sets the run
    flag to false and never keeps a further step from starting. And every step that passes the
    loop test, the voltage bound and the clock read writes its row, with `atof` of the text
    that the buffer holds after each read as the three readings. -/
theorem worker_ignores_bus (env : Env) (sta : Nat → Nat → Int) (res : Nat → Nat → Ibrd)
    (fuel : Nat) :
    (worker (with_bus env sta res) fuel).map (List.filterMap control_view)
        = (worker env fuel).map (List.filterMap control_view)
      ∧ ∀ (pps_fd vm_fd : Int) (vac_fp gp : Nat) (s : Loop), env.run s.vac_index ≠ 0 →
        ¬ Dbl.lt VOLTAGE_MAX (voltage_of s.vac_index) →
        ¬ Dbl.lt (get_time s.clk (env.clock s.vac_index)).2.1 Dbl.zero →
        Ev.fprintf_row vac_fp s.vac_index (get_time s.clk (env.clock s.vac_index)).2.1
            ((cstr (buf_after env s 1)).map env.atof) ((cstr (buf_after env s 2)).map env.atof)
            ((cstr (buf_after env s 3)).map env.atof) (env.row_r s.vac_index)
          ∈ (step env pps_fd vm_fd vac_fp gp s).1 := by
  refine ⟨?_, ?_⟩
  · obtain ⟨t1, t2, t3, t4⟩ := teardown_control env sta res env.ibfind_pps env.ibfind_vm
      env.fopen_vac env.popen_gp
    have hs := sweep_ignores_bus env sta res env.ibfind_pps env.ibfind_vm env.fopen_vac
      env.popen_gp fuel ⟨0, buf_at_loop env, TimeSt.init⟩ ⟨0, buf_at_loop env, TimeSt.init⟩
      rfl rfl
    have hf : ∀ e : Env, (with_bus e sta res).ibfind_pps = e.ibfind_pps
        ∧ (with_bus e sta res).ibfind_vm = e.ibfind_vm
        ∧ (with_bus e sta res).fopen_vac = e.fopen_vac
        ∧ (with_bus e sta res).header_r = e.header_r
        ∧ (with_bus e sta res).popen_gp = e.popen_gp
        ∧ (with_bus e sta res).axes_r = e.axes_r
        ∧ (with_bus e sta res).filename_vac = e.filename_vac
        ∧ (with_bus e sta res).dir_str = e.dir_str
        ∧ (with_bus e sta res).buf0 = e.buf0 := by
      intro e; exact ⟨rfl, rfl, rfl, rfl, rfl, rfl, rfl, rfl, rfl⟩
    obtain ⟨f1, f2, f3, f4, f5, f6, f7, f8, f9⟩ := hf env
    unfold worker
    simp only [f1, f2, f3, f4, f5, f6, f7, f8, f9]
    split_ifs
    · rfl
    · simp only [Option.map_some', List.filterMap_append, t1]
    · simp only [Option.map_some', List.filterMap_append, t2, write_all_control]
    · simp only [Option.map_some', List.filterMap_append, t3, write_all_control]
    · simp only [Option.map_some', List.filterMap_append, t3, write_all_control]
    · simp only [Option.map_some', List.filterMap_append, t4, write_all_control]
    · simp only [buf_at_loop] at hs
      simp only [Option.map_map]
      cases hsw : sweep env env.ibfind_pps env.ibfind_vm env.fopen_vac env.popen_gp fuel
          ⟨0, snprintf 100 ("gnuplot > " ++ env.dir_str ++ "/gnuplot.log 2>&1") env.buf0,
            TimeSt.init⟩ with
      | none =>
        rw [hsw] at hs
        simp only [Option.map_none', Option.map_eq_none'] at hs
        simp [hs]
      | some t =>
        rw [hsw] at hs
        simp only [Option.map_some', Option.map_eq_some'] at hs
        obtain ⟨u, hu1, hu2⟩ := hs
        simp only [hu1, Option.map_some', Function.comp, List.filterMap_append, hu2, t4,
          write_all_control]
        rfl
  · intro pps_fd vm_fd vac_fp gp s c1 c2 c3
    have hrow : Ev.fprintf_row vac_fp s.vac_index (get_time s.clk (env.clock s.vac_index)).2.1
        ((cstr (buf_after env s 1)).map env.atof) ((cstr (buf_after env s 2)).map env.atof)
        ((cstr (buf_after env s 3)).map env.atof) (env.row_r s.vac_index)
        = row_event env vac_fp s := rfl
    rw [hrow]
    by_cases c4 : env.row_r s.vac_index < 0
    · rw [step_row_fails _ _ _ _ _ _ c1 c2 c3 c4]; simp
    by_cases c5 : env.plot_r s.vac_index < 0
    · rw [step_plot_fails _ _ _ _ _ _ c1 c2 c3 c4 c5]; simp
    · rw [step_next _ _ _ _ _ _ c1 c2 c3 c4 c5]; simp

set_option maxRecDepth 100000 in
/-- Witness for `worker_ignores_bus`: the first step of the run in which every query of that
    step fails on the bus. -/
theorem worker_ignores_bus_witness :
    Ev.fprintf_row 1 0 Dbl.zero (some Dbl.zero) (some Dbl.zero) (some Dbl.zero) 40
      ∈ (step env_bus_down 3 4 1 2 ⟨0, buf_at_loop env_bus_down, TimeSt.init⟩).1 :=
  (worker_ignores_bus env_bus_down env_bus_down.ibwrt_sta env_bus_down.ibrd_res 0).2 3 4 1 2
    ⟨0, buf_at_loop env_bus_down, TimeSt.init⟩ (by decide) (by decide) (by decide)

/-! ### the run flag -/

theorem loop_event_run_safe (e : Ev) (h : loop_event e = true) : run_safe e = true := by
  cases e <;> simp_all [loop_event, run_safe]

theorem teardown_run_safe (env : Env) (pps_fd vm_fd : Int) (vac_fp gp : Nat) :
    (worker_vm_ibfind env pps_fd).all run_safe = true
      ∧ (worker_vac_fopen env pps_fd vm_fd).all run_safe = true
      ∧ (worker_vac_header env pps_fd vm_fd vac_fp).all run_safe = true
      ∧ (worker_gp_settings env pps_fd vm_fd vac_fp gp).all run_safe = true := by
  have h1 : (worker_vm_ibfind env pps_fd).all run_safe = true := by
    simp [worker_vm_ibfind, gpib_write, run_safe]
  have h2 : (worker_vac_fopen env pps_fd vm_fd).all run_safe = true := by
    unfold worker_vac_fopen
    rw [List.all_append, h1]
    simp [gpib_write, run_safe]
  have h3 : (worker_vac_header env pps_fd vm_fd vac_fp).all run_safe = true := by
    unfold worker_vac_header
    rw [List.all_append, h2]
    split_ifs <;> simp [run_safe]
  refine ⟨h1, h2, h3, ?_⟩
  unfold worker_gp_settings
  rw [List.all_append, h3]
  split_ifs <;> simp [run_safe]

theorem write_all_run_safe (env : Env) (fd : Int) (n0 : Nat) (cmds : List String) :
    (write_all env fd n0 cmds).all run_safe = true := by
  simp only [write_all, List.all_eq_true, List.mem_flatten, List.mem_map]
  rintro e ⟨l, ⟨p, _, rfl⟩, he⟩
  simp only [gpib_write, List.mem_singleton] at he
  rw [he]; rfl

theorem worker_run_safe (env : Env) (fuel : Nat) (tr : List Ev)
    (h : worker env fuel = some tr) : tr.all run_safe = true := by
  obtain ⟨t1, t2, t3, t4⟩ := teardown_run_safe env env.ibfind_pps env.ibfind_vm env.fopen_vac
    env.popen_gp
  have w1 := write_all_run_safe env env.ibfind_pps 0 pps_init
  have w2 := write_all_run_safe env env.ibfind_vm 15 vm_init
  unfold worker at h
  simp only at h
  split_ifs at h
  all_goals try (
    simp only [Option.some.injEq] at h
    rw [← h]
    simp [List.all_append, t1, t2, t3, t4, w1, w2, run_safe])
  simp only [Option.map_eq_some'] at h
  obtain ⟨loop, hl, rfl⟩ := h
  have hle := sweep_loop_event env _ _ _ _ fuel _ loop hl
  have hloop : loop.all run_safe = true := by
    rw [List.all_eq_true] at hle ⊢
    intro e he
    exact loop_event_run_safe e (hle e he)
  simp [List.all_append, t4, w1, w2, hloop, run_safe, shutdown, gpib_write]

theorem commander_run_safe (input : Nat → Option String) (stop : Nat → Bool) :
    ∀ (n k : Nat) (run : Int), (commander input stop n k run).1.all run_safe = true := by
  intro n
  induction n with
  | zero => intro k run; rfl
  | succ n ih =>
    intro k run
    have hb : ∀ r : Int, (commander_body (input k) r).1.all run_safe = true := by
      intro r
      unfold commander_body
      cases input k with
      | none => simp [set_run, run_safe]
      | some str => simp only [set_run]; split_ifs <;> simp [run_safe]
    unfold commander
    simp only [get_run]
    split_ifs <;> simp [List.all_append, hb, ih, run_safe]

theorem interleave_mem {xs ys zs : List Ev} (h : Interleave xs ys zs) :
    ∀ e ∈ zs, e ∈ xs ∨ e ∈ ys := by
  induction h with
  | nil => intro e he; cases he
  | left x _ ih =>
    intro e he
    rcases List.mem_cons.mp he with rfl | he
    · exact Or.inl (List.mem_cons_self _ _)
    · rcases ih e he with h | h
      · exact Or.inl (List.mem_cons_of_mem _ h)
      · exact Or.inr h
  | right y _ ih =>
    intro e he
    rcases List.mem_cons.mp he with rfl | he
    · exact Or.inr (List.mem_cons_self _ _)
    · rcases ih e he with h | h
      · exact Or.inl h
      · exact Or.inr (List.mem_cons_of_mem _ h)

theorem interleave_append (xs ys : List Ev) : Interleave xs ys (xs ++ ys) := by
  induction xs with
  | nil =>
    induction ys with
    | nil => exact Interleave.nil
    | cons y ys ih => exact Interleave.right y ih
  | cons x xs ih => exact Interleave.left x ih

theorem foldl_run_zero (b : List Ev) (h : b.all run_safe = true) :
    b.foldl run_after 0 = 0 := by
  induction b with
  | nil => rfl
  | cons e es ih =>
    simp only [List.all_cons, Bool.and_eq_true] at h
    have he : run_after 0 e = 0 := by
      cases e <;> simp_all [run_after, run_safe]
    rw [List.foldl_cons, he]
    exact ih h.2

/-- C7: `main` sets the flag to 1 and starts the two threads. In every merge `m` of the events
    of `worker` with the events `tc` of `commander` up to the point where it returns or is
    cancelled, every call of `set_run` passes 0, and once the flag is 0 after a part `a` of the
    merge it is 0 after every longer part `a ++ b`. -/
theorem run_flag_stays_false (env : Env) (fuel : Nat) (tw : List Ev)
    (hw : worker env fuel = some tw) (input : Nat → Option String) (stop : Nat → Bool)
    (n : Nat) (tc rest : List Ev) (hc : (commander input stop n 0 1).1 = tc ++ rest)
    (m : List Ev) (hm : Interleave tw tc m) :
    (∀ v, Ev.set_run v ∈ m → v = 0)
      ∧ ∀ a b c, m = a ++ b ++ c → a.foldl run_after 1 = 0 →
          (a ++ b).foldl run_after 1 = 0 := by
  have hall : ∀ e ∈ m, run_safe e = true := by
    intro e he
    rcases interleave_mem hm e he with h | h
    · exact (List.all_eq_true.mp (worker_run_safe env fuel tw hw)) e h
    · exact (List.all_eq_true.mp (commander_run_safe input stop n 0 1)) e
        (by rw [hc]; exact List.mem_append_left _ h)
  refine ⟨?_, ?_⟩
  · intro v hv
    simpa [run_safe] using hall _ hv
  · intro a b c hsplit h0
    rw [List.foldl_append, h0]
    apply foldl_run_zero
    rw [List.all_eq_true]
    intro e he
    exact hall e (by rw [hsplit]; simp [he])

/-- Witness for `run_flag_stays_false`: the clock fails in the first step and the operator
    types `q`; the events of `worker` followed by those of `commander`. -/
theorem run_flag_stays_false_witness :
    (∀ v, Ev.set_run v ∈ (worker env_clock_fails 1).getD []
        ++ (commander (fun _ => some "q\n") (fun _ => false) 2 0 1).1 → v = 0)
      ∧ ∀ a b c, (worker env_clock_fails 1).getD []
          ++ (commander (fun _ => some "q\n") (fun _ => false) 2 0 1).1 = a ++ b ++ c →
        a.foldl run_after 1 = 0 → (a ++ b).foldl run_after 1 = 0 :=
  run_flag_stays_false env_clock_fails 1 ((worker env_clock_fails 1).getD []) (by decide)
    (fun _ => some "q\n") (fun _ => false) 2
    (commander (fun _ => some "q\n") (fun _ => false) 2 0 1).1 [] (List.append_nil _).symm
    _ (interleave_append _ _)

/-! ### binary64 arithmetic and `get_time` -/

theorem ilog2_spec : ∀ (f n : Nat), 1 ≤ n → n ≤ f →
    2 ^ ilog2 f n ≤ n ∧ n < 2 ^ (ilog2 f n + 1) := by
  intro f
  induction f with
  | zero => intro n h1 h2; omega
  | succ f ih =>
    intro n h1 h2
    unfold ilog2
    split_ifs with h
    · constructor <;> simp <;> omega
    · have hn : 1 ≤ n / 2 := by omega
      have hf : n / 2 ≤ f := by omega
      obtain ⟨a, b⟩ := ih (n / 2) hn hf
      constructor
      · rw [pow_succ]; omega
      · rw [pow_succ]; omega

theorem rneDiv_one (a : Nat) : rneDiv a 1 = a := by
  simp [rneDiv, Nat.mod_one]

theorem rneDiv_dvd (a b : Nat) (hb : 0 < b) (h : b ∣ a) : rneDiv a b = a / b := by
  have : a % b = 0 := Nat.mod_eq_zero_of_dvd h
  simp [rneDiv, this, hb]

theorem fexp_one (a : Nat) (ha : 1 ≤ a) : fexp a 1 = (ilog2 a a : Int) := by
  obtain ⟨h1, h2⟩ := ilog2_spec a a ha (le_refl _)
  unfold fexp
  have h0 : ilog2 1 1 = 0 := by decide
  simp only [h0, Nat.cast_zero, sub_zero, one_mul, Int.toNat_ofNat]
  rw [if_neg]
  rintro (⟨_, h⟩ | ⟨h, _⟩)
  · omega
  · omega

theorem round_exact (c : Int) (j : Nat) (hc : c.natAbs < 2 ^ 53) :
    Exact (Dbl.round (c * 2 ^ j) 1 (-(j : Int))) c := by
  by_cases h0 : c = 0
  · subst h0
    simp [Dbl.round, Exact]
  have ha : c * 2 ^ j ≠ 0 := mul_ne_zero h0 (by positivity)
  have hn : (c * 2 ^ j).natAbs = c.natAbs * 2 ^ j := by
    rw [Int.natAbs_mul, Int.natAbs_pow]; rfl
  have hpos : 1 ≤ c.natAbs := Nat.one_le_iff_ne_zero.mpr (Int.natAbs_ne_zero.mpr h0)
  have hn1 : 1 ≤ c.natAbs * 2 ^ j := Nat.one_le_iff_ne_zero.mpr
    (Nat.mul_ne_zero (by omega) (by positivity))
  obtain ⟨l1, l2⟩ := ilog2_spec _ _ hn1 (le_refl _)
  set k := ilog2 (c.natAbs * 2 ^ j) (c.natAbs * 2 ^ j) with hk
  -- k ≤ 52 + j
  have hkj : k ≤ 52 + j := by
    by_contra hcon
    have : 2 ^ (53 + j) ≤ 2 ^ k := Nat.pow_le_pow_right (by norm_num) (by omega)
    have h3 : c.natAbs * 2 ^ j < 2 ^ 53 * 2 ^ j :=
      Nat.mul_lt_mul_of_pos_right hc (by positivity)
    rw [← pow_add] at h3
    omega
  have hsign : Int.sign (c * 2 ^ j) = Int.sign c := by
    rw [Int.sign_mul]
    have : Int.sign ((2 : Int) ^ j) = 1 := Int.sign_eq_one_of_pos (by positivity)
    rw [this, mul_one]
  unfold Dbl.round
  rw [if_neg ha]
  simp only [hn, fexp_one _ hn1, ← hk]
  by_cases hE : (0 : Int) ≤ (k : Int) - 52
  · rw [if_pos hE]
    have hEn : ((k : Int) - 52).toNat = k - 52 := by omega
    have hdvd : 2 ^ (k - 52) ∣ c.natAbs * 2 ^ j :=
      Dvd.dvd.mul_left (pow_dvd_pow 2 (by omega)) _
    rw [hEn, one_mul, rneDiv_dvd _ _ (by positivity) hdvd]
    have hdiv : c.natAbs * 2 ^ j / 2 ^ (k - 52) = c.natAbs * 2 ^ (j - (k - 52)) := by
      have : j = (j - (k - 52)) + (k - 52) := by omega
      conv_lhs => rw [this, pow_add, ← mul_assoc]
      exact Nat.mul_div_cancel _ (by positivity)
    rw [hdiv]
    refine ⟨by show ((k : Int) - 52) + -(j : Int) ≤ 0; omega, ?_⟩
    show Int.sign (c * 2 ^ j) * ((c.natAbs * 2 ^ (j - (k - 52)) : Nat) : Int)
      = c * 2 ^ (-(((k : Int) - 52) + -(j : Int))).toNat
    have he : (-(((k : Int) - 52) + -(j : Int))).toNat = j - (k - 52) := by omega
    rw [he, hsign]
    push_cast
    rw [← mul_assoc, Int.sign_mul_abs]
  · rw [if_neg hE]
    have hEn : (-((k : Int) - 52)).toNat = 52 - k := by omega
    rw [hEn, rneDiv_one]
    refine ⟨by show ((k : Int) - 52) + -(j : Int) ≤ 0; omega, ?_⟩
    show Int.sign (c * 2 ^ j) * ((c.natAbs * 2 ^ j * 2 ^ (52 - k) : Nat) : Int)
      = c * 2 ^ (-(((k : Int) - 52) + -(j : Int))).toNat
    have he : (-(((k : Int) - 52) + -(j : Int))).toNat = j + (52 - k) := by omega
    rw [he, hsign]
    push_cast
    rw [← mul_assoc, ← mul_assoc, Int.sign_mul_abs, pow_add, mul_assoc]

theorem exact_toRat (x : Dbl) (c : Int) (h : Exact x c) : x.toRat = c := by
  obtain ⟨h1, h2⟩ := h
  obtain ⟨J, hJ⟩ : ∃ J : Nat, x.e = -(J : Int) := ⟨(-x.e).toNat, by omega⟩
  have hJ2 : (-x.e).toNat = J := by omega
  unfold Dbl.toRat
  rw [h2, hJ2, hJ]
  push_cast
  rw [zpow_neg, zpow_natCast, mul_assoc, mul_inv_cancel₀ (by positivity), mul_one]

theorem exact_ofInt (i : Int) (h : i.natAbs < 2 ^ 53) : Exact (Dbl.ofInt i) i := by
  have := round_exact i 0 h
  simpa [Dbl.ofInt] using this

theorem exact_mul (x y : Dbl) (c1 c2 : Int) (hx : Exact x c1) (hy : Exact y c2)
    (h : (c1 * c2).natAbs < 2 ^ 53) : Exact (Dbl.mul x y) (c1 * c2) := by
  obtain ⟨x1, x2⟩ := hx
  obtain ⟨y1, y2⟩ := hy
  have := round_exact (c1 * c2) ((-x.e).toNat + (-y.e).toNat) h
  have hm : x.m * y.m = c1 * c2 * 2 ^ ((-x.e).toNat + (-y.e).toNat) := by
    rw [x2, y2, pow_add]; ring
  have he : x.e + y.e = -(((-x.e).toNat + (-y.e).toNat : Nat) : Int) := by omega
  unfold Dbl.mul
  rw [hm, he]
  exact this

theorem exact_add (x y : Dbl) (c1 c2 : Int) (hx : Exact x c1) (hy : Exact y c2)
    (h : (c1 + c2).natAbs < 2 ^ 53) : Exact (Dbl.add x y) (c1 + c2) := by
  obtain ⟨x1, x2⟩ := hx
  obtain ⟨y1, y2⟩ := hy
  have := round_exact (c1 + c2) (-(min x.e y.e)).toNat h
  have hx3 : (-x.e).toNat + (x.e - min x.e y.e).toNat = (-(min x.e y.e)).toNat := by omega
  have hy3 : (-y.e).toNat + (y.e - min x.e y.e).toNat = (-(min x.e y.e)).toNat := by omega
  have hm : x.m * 2 ^ (x.e - min x.e y.e).toNat + y.m * 2 ^ (y.e - min x.e y.e).toNat
      = (c1 + c2) * 2 ^ (-(min x.e y.e)).toNat := by
    rw [x2, y2, mul_assoc, mul_assoc, ← pow_add, ← pow_add, hx3, hy3]; ring
  have he : min x.e y.e = -(((-(min x.e y.e)).toNat : Nat) : Int) := by omega
  unfold Dbl.add
  simp only []
  rw [hm]
  conv_lhs => arg 3; rw [he]
  exact this

theorem lit_million : Dbl.lit 1000000 1 = ⟨8589934592000000, -33⟩ := by decide

theorem exact_million : Exact (Dbl.lit 1000000 1) 1000000 := by
  rw [lit_million]; exact ⟨by decide, by decide⟩

theorem get_time_later (t0 t : Timeval)
    (hs1 : 0 ≤ t.tv_sec - t0.tv_sec) (hs2 : t.tv_sec - t0.tv_sec < 2 ^ 33)
    (hu1 : -1000000 < t.tv_usec - t0.tv_usec) (hu2 : t.tv_usec - t0.tv_usec < 1000000) :
    ∃ J : Nat, (get_time ⟨0, t0⟩ (some t)).2.1
      = Dbl.round (((t.tv_sec - t0.tv_sec) * 1000000 + (t.tv_usec - t0.tv_usec)) * 2 ^ J)
          8589934592000000 (33 - (J : Int)) := by
  have e1 := exact_ofInt (t.tv_sec - t0.tv_sec) (by omega)
  have e2 := exact_mul _ _ _ _ e1 exact_million (by omega)
  have e3 := exact_ofInt (t.tv_usec - t0.tv_usec) (by omega)
  have e4 := exact_add _ _ _ _ e2 e3 (by omega)
  unfold get_time
  rw [if_neg (show ¬ (⟨0, t0⟩ : TimeSt).first = 1 by simp)]
  simp only []
  unfold Dbl.div
  set A := Dbl.add (Dbl.mul (Dbl.ofInt (t.tv_sec - t0.tv_sec)) (Dbl.lit 1000000 1))
    (Dbl.ofInt (t.tv_usec - t0.tv_usec)) with hA
  obtain ⟨h1, h2⟩ := e4
  refine ⟨(-A.e).toNat, ?_⟩
  rw [h2, lit_million]
  congr 1
  · have : Int.sign 8589934592000000 = 1 := by decide
    rw [this, one_mul]
  · show A.e - (-33) = 33 - ((-A.e).toNat : Int)
    omega

theorem rneDiv_err (a b : Nat) (hb : 0 < b) :
    |((rneDiv a b : Nat) : ℚ) - (a : ℚ) / b| ≤ 1 / 2 := by
  have hdm := Nat.div_add_mod a b
  have hlt := Nat.mod_lt a hb
  have hbq : (0 : ℚ) < b := by exact_mod_cast hb
  have ha : (a : ℚ) / b = (a / b : Nat) + ((a % b : Nat) : ℚ) / b := by
    have : (a : ℚ) = b * ((a / b : Nat) : ℚ) + ((a % b : Nat) : ℚ) := by
      exact_mod_cast hdm.symm
    field_simp
    linarith
  have hr0 : (0 : ℚ) ≤ ((a % b : Nat) : ℚ) / b := by positivity
  have hr1 : ((a % b : Nat) : ℚ) / b < 1 := by
    rw [div_lt_one hbq]; exact_mod_cast hlt
  unfold rneDiv
  simp only []
  rw [ha]
  split_ifs with c1 c2 c3
  · have : ((a % b : Nat) : ℚ) / b < 1 / 2 := by
      rw [div_lt_div_iff₀ hbq (by norm_num)]
      have : ((2 * (a % b) : Nat) : ℚ) < b := by exact_mod_cast c1
      push_cast at this; linarith
    rw [abs_le]; constructor <;> linarith
  · have : 1 / 2 < ((a % b : Nat) : ℚ) / b := by
      rw [div_lt_div_iff₀ (by norm_num) hbq]
      have : (b : ℚ) < ((2 * (a % b) : Nat) : ℚ) := by exact_mod_cast c2
      push_cast at this; linarith
    push_cast
    rw [abs_le]; constructor <;> linarith
  · have : ((a % b : Nat) : ℚ) / b = 1 / 2 := by
      rw [div_eq_div_iff (ne_of_gt hbq) (by norm_num)]
      have : 2 * (a % b) = b := by omega
      have : ((2 * (a % b) : Nat) : ℚ) = b := by exact_mod_cast this
      push_cast at this; linarith
    rw [abs_le]; constructor <;> linarith
  · have : ((a % b : Nat) : ℚ) / b = 1 / 2 := by
      rw [div_eq_div_iff (ne_of_gt hbq) (by norm_num)]
      have : 2 * (a % b) = b := by omega
      have : ((2 * (a % b) : Nat) : ℚ) = b := by exact_mod_cast this
      push_cast at this; linarith
    push_cast
    rw [abs_le]; constructor <;> linarith

theorem fexp_lower (a b : Nat) (ha : 1 ≤ a) (hb : 1 ≤ b) :
    (2 : ℚ) ^ (fexp a b) ≤ (a : ℚ) / b := by
  obtain ⟨a1, a2⟩ := ilog2_spec a a ha (le_refl _)
  obtain ⟨b1, b2⟩ := ilog2_spec b b hb (le_refl _)
  have hbq : (0 : ℚ) < b := by exact_mod_cast hb
  have ha1 : ((2 : ℚ) ^ ilog2 a a) ≤ a := by exact_mod_cast a1
  have hb2 : (b : ℚ) ≤ 2 ^ (ilog2 b b + 1) := by exact_mod_cast le_of_lt b2
  unfold fexp
  simp only []
  split_ifs with hC
  · have : (2 : ℚ) ^ ((ilog2 a a : Int) - (ilog2 b b : Int) - 1)
        = 2 ^ ilog2 a a / 2 ^ (ilog2 b b + 1) := by
      rw [sub_sub, zpow_sub₀ (by norm_num), zpow_natCast]
      congr 1
      have : ((ilog2 b b : Int) + 1) = ((ilog2 b b + 1 : Nat) : Int) := by push_cast; rfl
      rw [this, zpow_natCast]
    rw [this]
    exact div_le_div₀ (by positivity) ha1 hbq hb2
  · rw [not_or] at hC
    obtain ⟨c1, c2⟩ := hC
    by_cases h0 : (0 : Int) ≤ (ilog2 a a : Int) - (ilog2 b b : Int)
    · have c1' : ¬ a < b * 2 ^ ((ilog2 a a : Int) - (ilog2 b b : Int)).toNat := fun h => c1 ⟨h0, h⟩
      obtain ⟨K, hK⟩ : ∃ K : Nat, (ilog2 a a : Int) - (ilog2 b b : Int) = K :=
        ⟨((ilog2 a a : Int) - (ilog2 b b : Int)).toNat, by omega⟩
      rw [hK] at c1' ⊢
      rw [Int.toNat_ofNat] at c1'
      rw [zpow_natCast, le_div_iff₀ hbq]
      have : b * 2 ^ K ≤ a := by omega
      have : ((b * 2 ^ K : Nat) : ℚ) ≤ a := by exact_mod_cast this
      push_cast at this
      linarith
    · have h0' : (ilog2 a a : Int) - (ilog2 b b : Int) < 0 := by omega
      have c2' : ¬ a * 2 ^ (-((ilog2 a a : Int) - (ilog2 b b : Int))).toNat < b :=
        fun h => c2 ⟨h0', h⟩
      obtain ⟨K, hK⟩ : ∃ K : Nat, (ilog2 a a : Int) - (ilog2 b b : Int) = -(K : Int) :=
        ⟨(-((ilog2 a a : Int) - (ilog2 b b : Int))).toNat, by omega⟩
      rw [hK] at c2' ⊢
      rw [neg_neg, Int.toNat_ofNat] at c2'
      rw [zpow_neg, zpow_natCast, le_div_iff₀ hbq, inv_mul_le_iff₀ (by positivity)]
      have : b ≤ a * 2 ^ K := by omega
      have : (b : ℚ) ≤ ((a * 2 ^ K : Nat) : ℚ) := by exact_mod_cast this
      push_cast at this
      linarith

theorem round_err (a : Int) (b : Nat) (s : Int) (ha : 0 < a) (hb : 1 ≤ b) :
    |(Dbl.round a b s).toRat - (a : ℚ) / b * 2 ^ s| ≤ 2 ^ (fexp a.natAbs b - 53 + s) := by
  have hbq : (0 : ℚ) < b := by exact_mod_cast hb
  have hna : ((a.natAbs : Nat) : ℚ) = (a : ℚ) := by
    have h1 : ((a.natAbs : Nat) : Int) = a := Int.natAbs_of_nonneg (le_of_lt ha)
    have h2 : (((a.natAbs : Nat) : Int) : ℚ) = (a : ℚ) := by rw [h1]
    rw [← h2, Int.cast_natCast]
  have hsign : Int.sign a = 1 := Int.sign_eq_one_of_pos ha
  have key : ∀ (mant : Nat) (y : ℚ) (E : Int), |(mant : ℚ) - y| ≤ 1 / 2 →
      y * 2 ^ (E + s) = (a : ℚ) / b * 2 ^ s →
      |(⟨Int.sign a * (mant : Int), E + s⟩ : Dbl).toRat - (a : ℚ) / b * 2 ^ s|
        ≤ 2 ^ (E - 1 + s) := by
    intro mant y E h1 h2
    have hp : (0 : ℚ) < 2 ^ (E + s) := by positivity
    unfold Dbl.toRat
    simp only [hsign, one_mul, Int.cast_natCast]
    rw [← h2, ← sub_mul, abs_mul, abs_of_pos hp]
    have : (2 : ℚ) ^ (E - 1 + s) = 1 / 2 * 2 ^ (E + s) := by
      have : E - 1 + s = (E + s) - 1 := by ring
      rw [this, zpow_sub₀ (by norm_num), zpow_one]; ring
    rw [this]
    exact mul_le_mul_of_nonneg_right h1 (le_of_lt hp)
  have hfe : fexp a.natAbs b - 53 + s = (fexp a.natAbs b - 52) - 1 + s := by ring
  rw [hfe]
  unfold Dbl.round
  rw [if_neg (ne_of_gt ha)]
  simp only []
  split_ifs with hE
  · obtain ⟨K, hK⟩ : ∃ K : Nat, fexp a.natAbs b - 52 = K :=
      ⟨(fexp a.natAbs b - 52).toNat, by omega⟩
    rw [hK, Int.toNat_ofNat]
    apply key _ (((a.natAbs : Nat) : ℚ) / ((b * 2 ^ K : Nat) : ℚ)) K
      (rneDiv_err _ _ (by positivity))
    rw [hna, zpow_add₀ (by norm_num), zpow_natCast]
    push_cast
    field_simp
    ring
  · obtain ⟨K, hK⟩ : ∃ K : Nat, fexp a.natAbs b - 52 = -(K : Int) :=
      ⟨(-(fexp a.natAbs b - 52)).toNat, by omega⟩
    rw [hK, neg_neg, Int.toNat_ofNat]
    apply key _ (((a.natAbs * 2 ^ K : Nat) : ℚ) / (b : ℚ)) (-(K : Int))
      (rneDiv_err _ _ (by omega))
    rw [zpow_add₀ (by norm_num), zpow_neg, zpow_natCast]
    push_cast
    rw [hna]
    field_simp
    ring

theorem lt_of_toRat_lt (x y : Dbl) (h : x.toRat < y.toRat) : Dbl.lt x y := by
  have hx : x.toRat = ((x.m * 2 ^ (x.e - min x.e y.e).toNat : Int) : ℚ) * 2 ^ (min x.e y.e) := by
    unfold Dbl.toRat
    push_cast
    rw [mul_assoc, ← zpow_natCast, ← zpow_add₀ (by norm_num)]
    congr 2
    omega
  have hy : y.toRat = ((y.m * 2 ^ (y.e - min x.e y.e).toNat : Int) : ℚ) * 2 ^ (min x.e y.e) := by
    unfold Dbl.toRat
    push_cast
    rw [mul_assoc, ← zpow_natCast, ← zpow_add₀ (by norm_num)]
    congr 2
    omega
  rw [hx, hy] at h
  have hp : (0 : ℚ) < 2 ^ (min x.e y.e) := by positivity
  have := lt_of_mul_lt_mul_right h (le_of_lt hp)
  unfold Dbl.lt
  exact_mod_cast this

theorem elapsed_approx (n : Int) (J : Nat) (h0 : 1 ≤ n) (h2 : n < 8589934592000000) :
    |(Dbl.round (n * 2 ^ J) 8589934592000000 (33 - (J : Int))).toRat - (n : ℚ) / 1000000|
      ≤ 2 ^ (-21 : Int) := by
  have hpos : 0 < n * 2 ^ J := mul_pos (by omega) (by positivity)
  have h := round_err (n * 2 ^ J) 8589934592000000 (33 - (J : Int)) hpos (by norm_num)
  have htarget : ((n * 2 ^ J : Int) : ℚ) / ((8589934592000000 : Nat) : ℚ) * 2 ^ (33 - (J : Int))
      = (n : ℚ) / 1000000 := by
    rw [zpow_sub₀ (by norm_num), zpow_natCast]
    push_cast
    field_simp
    norm_num
    ring
  rw [htarget] at h
  refine le_trans h ?_
  apply zpow_le_zpow_right₀ (by norm_num)
  -- the exponent
  have hna : ((n * 2 ^ J).natAbs : Int) = n * 2 ^ J := Int.natAbs_of_nonneg (le_of_lt hpos)
  have hnat : 1 ≤ (n * 2 ^ J).natAbs := by omega
  have hl := fexp_lower (n * 2 ^ J).natAbs 8589934592000000 hnat (by norm_num)
  have hq : (((n * 2 ^ J).natAbs : Nat) : ℚ) = (n : ℚ) * 2 ^ J := by
    have : ((((n * 2 ^ J).natAbs : Nat) : Int) : ℚ) = ((n * 2 ^ J : Int) : ℚ) := by rw [hna]
    rw [Int.cast_natCast] at this
    rw [this]; push_cast; ring
  have hup : (((n * 2 ^ J).natAbs : Nat) : ℚ) / ((8589934592000000 : Nat) : ℚ)
      < (2 : ℚ) ^ (J : Int) := by
    rw [hq, zpow_natCast, div_lt_iff₀ (by norm_num)]
    have : (n : ℚ) < 8589934592000000 := by exact_mod_cast h2
    have hJ : (0 : ℚ) < 2 ^ J := by positivity
    push_cast
    nlinarith
  have := lt_of_le_of_lt hl hup
  rw [zpow_lt_zpow_iff_right₀ (by norm_num)] at this
  omega

theorem elapsed_lt (n n1 : Int) (J J1 : Nat) (h0 : 1 ≤ n) (h1 : n < n1)
    (h2 : n1 < 8589934592000000) :
    Dbl.lt (Dbl.round (n * 2 ^ J) 8589934592000000 (33 - (J : Int)))
      (Dbl.round (n1 * 2 ^ J1) 8589934592000000 (33 - (J1 : Int))) := by
  apply lt_of_toRat_lt
  have a1 := elapsed_approx n J h0 (by omega)
  have a2 := elapsed_approx n1 J1 (by omega) h2
  rw [abs_le] at a1 a2
  have hn : (n : ℚ) + 1 ≤ n1 := by exact_mod_cast h1
  have hz : (2 : ℚ) ^ (-21 : Int) = 1 / 2097152 := by norm_num [zpow_neg]
  rw [hz] at a1 a2
  have : (n1 : ℚ) / 1000000 - (n : ℚ) / 1000000 ≥ 1 / 1000000 := by
    rw [← sub_div, ge_iff_le, div_le_div_iff_of_pos_right (by norm_num)]; linarith
  linarith [a1.2, a2.1]

theorem elapsed_pos (n1 : Int) (J1 : Nat) (h1 : 1 ≤ n1) (h2 : n1 < 8589934592000000) :
    Dbl.lt Dbl.zero (Dbl.round (n1 * 2 ^ J1) 8589934592000000 (33 - (J1 : Int))) := by
  apply lt_of_toRat_lt
  have a2 := elapsed_approx n1 J1 h1 h2
  rw [abs_le] at a2
  have hn : (1 : ℚ) ≤ n1 := by exact_mod_cast h1
  have hz : (2 : ℚ) ^ (-21 : Int) = 1 / 2097152 := by norm_num [zpow_neg]
  rw [hz] at a2
  have h0 : Dbl.zero.toRat = 0 := by simp [Dbl.zero, Dbl.toRat]
  have : (n1 : ℚ) / 1000000 ≥ 1 / 1000000 := by
    rw [ge_iff_le, div_le_div_iff_of_pos_right (by norm_num)]; exact hn
  rw [h0]
  linarith [a2.1]

/-! ### elapsed time -/

theorem clk_at_succ (env : Env) (t : Nat → Timeval) (n : Nat)
    (hclock : ∀ k, k ≤ n → env.clock k = some (t k)) :
    ∀ k, k ≤ n → clk_at env (k + 1) = ⟨0, t 0⟩ := by
  intro k
  induction k with
  | zero =>
    intro h
    simp [clk_at, get_time, TimeSt.init, hclock 0 h]
  | succ k ih =>
    intro h
    have := ih (by omega)
    rw [clk_at, this, hclock (k + 1) h]
    simp [get_time]

theorem micros_increasing (t : Nat → Timeval) (n : Nat)
    (hvalid : ∀ k, k ≤ n → (t k).valid) (hinc : ∀ k, k < n → (t k).lt (t (k + 1))) :
    ∀ k, k < n → (t k).tv_sec ≤ (t (k + 1)).tv_sec
      ∧ (t k).tv_sec * 1000000 + (t k).tv_usec
        < (t (k + 1)).tv_sec * 1000000 + (t (k + 1)).tv_usec := by
  intro k hk
  have v1 := hvalid k (by omega)
  have v2 := hvalid (k + 1) (by omega)
  unfold Timeval.valid at v1 v2
  rcases hinc k hk with h | ⟨h1, h2⟩
  · exact ⟨le_of_lt h, by omega⟩
  · exact ⟨le_of_eq h1, by omega⟩

theorem micros_from_first (t : Nat → Timeval) (n : Nat)
    (hvalid : ∀ k, k ≤ n → (t k).valid) (hinc : ∀ k, k < n → (t k).lt (t (k + 1))) :
    ∀ k, k < n → (t 0).tv_sec ≤ (t (k + 1)).tv_sec
      ∧ (t 0).tv_sec * 1000000 + (t 0).tv_usec
        < (t (k + 1)).tv_sec * 1000000 + (t (k + 1)).tv_usec := by
  intro k
  induction k with
  | zero => intro h; exact micros_increasing t n hvalid hinc 0 h
  | succ k ih =>
    intro h
    obtain ⟨a1, a2⟩ := ih (by omega)
    obtain ⟨b1, b2⟩ := micros_increasing t n hvalid hinc (k + 1) h
    exact ⟨le_trans a1 b1, lt_trans a2 b2⟩

theorem vac_time_increasing (env : Env) (t : Nat → Timeval) (n : Nat)
    (hclock : ∀ k, k ≤ n → env.clock k = some (t k))
    (hvalid : ∀ k, k ≤ n → (t k).valid)
    (hinc : ∀ k, k < n → (t k).lt (t (k + 1)))
    (hspan : ∀ k, k ≤ n → (t k).tv_sec - (t 0).tv_sec < 2 ^ 33) :
    vac_time_at env 0 = Dbl.zero
      ∧ ∀ k, k < n → Dbl.lt (vac_time_at env k) (vac_time_at env (k + 1)) := by
  have h0 : vac_time_at env 0 = Dbl.zero := by
    simp [vac_time_at, clk_at, get_time, TimeSt.init, hclock 0 (Nat.zero_le _)]
  have hlater : ∀ k, k < n → ∃ J : Nat, vac_time_at env (k + 1)
      = Dbl.round ((((t (k + 1)).tv_sec - (t 0).tv_sec) * 1000000
          + ((t (k + 1)).tv_usec - (t 0).tv_usec)) * 2 ^ J) 8589934592000000 (33 - (J : Int))
        ∧ 1 ≤ ((t (k + 1)).tv_sec - (t 0).tv_sec) * 1000000
          + ((t (k + 1)).tv_usec - (t 0).tv_usec)
        ∧ ((t (k + 1)).tv_sec - (t 0).tv_sec) * 1000000
          + ((t (k + 1)).tv_usec - (t 0).tv_usec) < 8589934592000000 := by
    intro k hk
    obtain ⟨a1, a2⟩ := micros_from_first t n hvalid hinc k hk
    have v0 := hvalid 0 (Nat.zero_le _)
    have v1 := hvalid (k + 1) (by omega)
    have sp := hspan (k + 1) (by omega)
    unfold Timeval.valid at v0 v1
    norm_num at sp
    obtain ⟨J, hJ⟩ := get_time_later (t 0) (t (k + 1)) (by omega) (by norm_num; omega)
      (by omega) (by omega)
    refine ⟨J, ?_, by omega, by omega⟩
    rw [vac_time_at, clk_at_succ env t n hclock k (by omega), hclock (k + 1) (by omega)]
    exact hJ
  refine ⟨h0, ?_⟩
  intro k hk
  obtain ⟨J1, e1, p1, q1⟩ := hlater k hk
  rw [e1]
  cases k with
  | zero =>
    rw [h0]
    exact elapsed_pos _ _ p1 q1
  | succ k =>
    obtain ⟨J, e, p, q⟩ := hlater k (by omega)
    rw [e]
    have := (micros_increasing t n hvalid hinc (k + 1) hk).2
    exact elapsed_lt _ _ _ _ p (by omega) q1

theorem get_time_no_row (st : TimeSt) (now : Option Timeval) :
    (get_time st now).1.filterMap row_time = [] := by
  unfold get_time
  split_ifs <;> cases now <;> rfl

theorem step_row_times (env : Env) (pps_fd vm_fd : Int) (vac_fp gp : Nat) (s : Loop)
    (hc : s.clk = clk_at env s.vac_index) (hi : s.vac_index ≤ 101) :
    ((step env pps_fd vm_fd vac_fp gp s).2 = none
        ∧ ((step env pps_fd vm_fd vac_fp gp s).1.filterMap row_time = []
          ∨ (s.vac_index ≤ 100 ∧ (step env pps_fd vm_fd vac_fp gp s).1.filterMap row_time
              = [vac_time_at env s.vac_index])))
      ∨ ((step env pps_fd vm_fd vac_fp gp s).2 = some (next_state env s)
        ∧ s.vac_index ≤ 100
        ∧ (step env pps_fd vm_fd vac_fp gp s).1.filterMap row_time
            = [vac_time_at env s.vac_index]) := by
  have hh : (head_events env pps_fd s).filterMap row_time = [] := by
    simp [head_events, List.filterMap_append, get_time_no_row, List.filterMap_cons, row_time]
  have hq : (query_events env pps_fd vm_fd s).filterMap row_time = [] := by
    simp [query_events, gpib_read, List.filterMap_append, List.filterMap_cons, row_time]
  have hr : row_time (row_event env vac_fp s) = some (vac_time_at env s.vac_index) := by
    simp [row_event, row_time, vac_time_at, hc]
  have hp : row_time (plot_event env gp s) = none := rfl
  have he : ∀ m, row_time (Ev.eprintf m) = none := fun _ => rfl
  have hsr : ∀ v, row_time (Ev.set_run v) = none := fun _ => rfl
  by_cases c1 : env.run s.vac_index = 0
  · rw [step_stop _ _ _ _ _ _ c1]
    exact Or.inl ⟨rfl, Or.inl rfl⟩
  by_cases c2 : Dbl.lt VOLTAGE_MAX (voltage_of s.vac_index)
  · rw [step_bound _ _ _ _ _ _ c1 c2]
    exact Or.inl ⟨rfl, Or.inl rfl⟩
  have h100 : s.vac_index ≤ 100 := by
    by_contra hcon
    have : s.vac_index = 101 := by omega
    rw [this] at c2
    exact c2 voltage_101
  by_cases c3 : Dbl.lt (get_time s.clk (env.clock s.vac_index)).2.1 Dbl.zero
  · rw [step_clock_fails _ _ _ _ _ _ c1 c2 c3]
    refine Or.inl ⟨rfl, Or.inl ?_⟩
    simp [List.filterMap_append, hh, List.filterMap_cons, he, hsr]
  by_cases c4 : env.row_r s.vac_index < 0
  · rw [step_row_fails _ _ _ _ _ _ c1 c2 c3 c4]
    refine Or.inl ⟨rfl, Or.inr ⟨h100, ?_⟩⟩
    simp [List.filterMap_append, hh, hq, List.filterMap_cons, hr, he, hsr]
  by_cases c5 : env.plot_r s.vac_index < 0
  · rw [step_plot_fails _ _ _ _ _ _ c1 c2 c3 c4 c5]
    refine Or.inl ⟨rfl, Or.inr ⟨h100, ?_⟩⟩
    simp [List.filterMap_append, hh, hq, List.filterMap_cons, hr, hp, he, hsr]
  · rw [step_next _ _ _ _ _ _ c1 c2 c3 c4 c5]
    refine Or.inr ⟨rfl, h100, ?_⟩
    simp [List.filterMap_append, hh, hq, List.filterMap_cons, hr, hp]

theorem sweep_row_times (env : Env) (pps_fd vm_fd : Int) (vac_fp gp : Nat) :
    ∀ (fuel : Nat) (s : Loop) (t : List Ev), s.clk = clk_at env s.vac_index →
      s.vac_index ≤ 101 → sweep env pps_fd vm_fd vac_fp gp fuel s = some t →
      ∃ n, s.vac_index + n ≤ 101
        ∧ t.filterMap row_time = (List.range' s.vac_index n).map (vac_time_at env) := by
  intro fuel
  induction fuel with
  | zero => intro s t _ _ h; simp [sweep] at h
  | succ f ih =>
    intro s t hc hi h
    unfold sweep at h
    have hs := step_row_times env pps_fd vm_fd vac_fp gp s hc hi
    rcases hst : step env pps_fd vm_fd vac_fp gp s with ⟨evs, _ | s1⟩
    · rw [hst] at h hs
      simp only [Option.some.injEq] at h
      subst h
      rcases hs with ⟨_, h1 | ⟨h0, h1⟩⟩ | ⟨h1, _⟩
      · exact ⟨0, by omega, by simpa using h1⟩
      · exact ⟨1, by omega, by simpa using h1⟩
      · simp at h1
    · rw [hst] at h hs
      simp only [Option.map_eq_some'] at h
      obtain ⟨t1, ht1, rfl⟩ := h
      rcases hs with ⟨h1, _⟩ | ⟨h1, h100, h2⟩
      · simp at h1
      · simp only [Option.some.injEq] at h1
        subst h1
        obtain ⟨n, hn1, hn2⟩ := ih (next_state env s) t1
          (by simp [next_state, clk_at, hc]) (by simp [next_state]; omega) ht1
        simp only [next_state] at hn1 hn2
        refine ⟨n + 1, by omega, ?_⟩
        simp only at h2
        rw [List.filterMap_append, h2, hn2, List.range'_succ]
        rfl

theorem write_all_no_row (env : Env) (fd : Int) (n0 : Nat) (cmds : List String) :
    (write_all env fd n0 cmds).filterMap row_time = [] := by
  rw [List.filterMap_eq_nil_iff]
  intro e he
  simp only [write_all, List.mem_flatten, List.mem_map] at he
  obtain ⟨l, ⟨p, _, rfl⟩, he⟩ := he
  simp only [gpib_write, List.mem_singleton] at he
  rw [he]; rfl

theorem teardown_no_row (env : Env) (pps_fd vm_fd : Int) (vac_fp gp : Nat) :
    (worker_vm_ibfind env pps_fd).filterMap row_time = []
      ∧ (worker_vac_fopen env pps_fd vm_fd).filterMap row_time = []
      ∧ (worker_vac_header env pps_fd vm_fd vac_fp).filterMap row_time = []
      ∧ (worker_gp_settings env pps_fd vm_fd vac_fp gp).filterMap row_time = [] := by
  have h1 : (worker_vm_ibfind env pps_fd).filterMap row_time = [] := rfl
  have h2 : (worker_vac_fopen env pps_fd vm_fd).filterMap row_time = [] := rfl
  have h3 : (worker_vac_header env pps_fd vm_fd vac_fp).filterMap row_time = [] := by
    unfold worker_vac_header
    simp only [List.filterMap_append, h2]
    split_ifs <;> rfl
  refine ⟨h1, h2, h3, ?_⟩
  unfold worker_gp_settings
  simp only [List.filterMap_append, h3]
  split_ifs <;> rfl

theorem worker_row_times (env : Env) (fuel : Nat) (tr : List Ev)
    (h : worker env fuel = some tr) :
    ∃ n, n ≤ 101 ∧ tr.filterMap row_time = (List.range n).map (vac_time_at env) := by
  obtain ⟨t1, t2, t3, t4⟩ := teardown_no_row env env.ibfind_pps env.ibfind_vm env.fopen_vac
    env.popen_gp
  have w1 := write_all_no_row env env.ibfind_pps 0 pps_init
  have w2 := write_all_no_row env env.ibfind_vm 15 vm_init
  unfold worker at h
  simp only at h
  split_ifs at h
  all_goals try (
    simp only [Option.some.injEq] at h
    rw [← h]
    exact ⟨0, by omega, by simp [List.filterMap_append, t1, t2, t3, t4, w1, w2, row_time]⟩)
  simp only [Option.map_eq_some'] at h
  obtain ⟨loop, hl, rfl⟩ := h
  obtain ⟨n, hn1, hn2⟩ := sweep_row_times env _ _ _ _ fuel _ loop rfl (by simp) hl
  simp only at hn1 hn2
  refine ⟨n, by omega, ?_⟩
  simp only [List.filterMap_append, t4, w1, w2, hn2, shutdown, gpib_write]
  simp [row_time, List.range_eq_range']

set_option maxRecDepth 100000 in
/-- C9 (counterexample): the clock reads 0 s, then 2^33 s + 1 us, then 2^33 s + 2 us: valid and
    strictly increasing readings, yet the rows of the second and the third step carry the same
    elapsed time, because two values one microsecond apart round to the same double. -/
theorem far_clock_repeats_time :
    (∀ k, k ≤ 2 → env_far_clock.clock k = some (clock_far k) ∧ (clock_far k).valid)
      ∧ (∀ k, k < 2 → (clock_far k).lt (clock_far (k + 1)))
      ∧ (worker env_far_clock 4).map (List.filterMap row_time)
          = some [Dbl.zero, ⟨4503599627370497, -19⟩, ⟨4503599627370497, -19⟩]
      ∧ ¬ Dbl.lt (vac_time_at env_far_clock 1) (vac_time_at env_far_clock 2) := by
  decide

/-- C9 (amended): when the clock reads succeed with valid readings (microseconds in
    `[0, 10^6)`) that strictly increase from step to step and stay less than 2^33 seconds after
    the first one, the rows that `worker` writes carry the values of `get_time` of the steps
    0, 1, ..., in this order; the value of the first step is exactly 0.0 and the value of every
    later step is strictly greater than that of the step before. The value is the double
    nearest to `((sec - sec0) * 10^6 + (usec - usec0)) / 10^6`. -/
theorem elapsed_time_increases (env : Env) (t : Nat → Timeval)
    (hclock : ∀ k, k ≤ 100 → env.clock k = some (t k))
    (hvalid : ∀ k, k ≤ 100 → (t k).valid)
    (hinc : ∀ k, k < 100 → (t k).lt (t (k + 1)))
    (hspan : ∀ k, k ≤ 100 → (t k).tv_sec - (t 0).tv_sec < 2 ^ 33)
    (fuel : Nat) (tr : List Ev) (hw : worker env fuel = some tr) :
    (∃ n, n ≤ 101 ∧ tr.filterMap row_time = (List.range n).map (vac_time_at env))
      ∧ vac_time_at env 0 = Dbl.zero
      ∧ ∀ k, k < 100 → Dbl.lt (vac_time_at env k) (vac_time_at env (k + 1)) := by
  obtain ⟨h0, hlt⟩ := vac_time_increasing env t 100 hclock hvalid hinc hspan
  exact ⟨worker_row_times env fuel tr hw, h0, hlt⟩

set_option maxRecDepth 100000 in
/-- Witness for `elapsed_time_increases`: the clock advances one second per step and the run is
    stopped after two steps. -/
theorem elapsed_time_increases_witness :
    (∃ n, n ≤ 101 ∧ ((worker env_bus_down 3).getD []).filterMap row_time
        = (List.range n).map (vac_time_at env_bus_down))
      ∧ vac_time_at env_bus_down 0 = Dbl.zero
      ∧ ∀ k, k < 100 → Dbl.lt (vac_time_at env_bus_down k) (vac_time_at env_bus_down (k + 1)) :=
  elapsed_time_increases env_bus_down clock_ok (fun _ _ => rfl) (by decide) (by decide)
    (by decide) 3 ((worker env_bus_down 3).getD []) (by decide)

/-! ### `commander` -/

/-- C8 (counterexample): the line `hello` is neither the help nor the quit command, yet
    `commander` prints the help text and no unknown-command report; the line `quiet` is neither
    of them either, yet `commander` clears the run flag. -/
theorem commander_first_character_only :
    ¬ spec_help_command "hello\n" ∧ ¬ spec_quit_command "hello\n"
      ∧ commander_body (some "hello\n") 1
          = ([Ev.printf "> ", Ev.fgets (some "hello\n"), Ev.printf help_text], 1, false)
      ∧ ¬ spec_help_command "quiet\n" ∧ ¬ spec_quit_command "quiet\n"
      ∧ commander_body (some "quiet\n") 1
          = ([Ev.printf "> ", Ev.fgets (some "quiet\n"), Ev.set_run 0], 0, false) := by
  decide

/-- C8 (amended): while the flag is set, `commander` dispatches on the first character of the
    line only. At end of input it reports, clears the flag and returns. On a line starting with
    `q` it clears the flag and returns at the next loop test without reading again. On a line
    starting with `h` it prints the help text, leaves the flag unchanged and goes on. On any other
    line it prints the unknown-command report to the error channel, leaves the flag unchanged
    and goes on. -/
theorem commander_dispatch (input : Nat → Option String) (stop : Nat → Bool) (n k : Nat)
    (run : Int) (hrun : run ≠ 0) (hstop : stop k = false) :
    (input k = none →
        commander input stop (n + 1) k run
          = ([Ev.get_run run, Ev.printf "> ", Ev.fgets none, Ev.eprintf "# E: Exit\n",
              Ev.set_run 0], 0, true))
      ∧ (∀ str, input k = some str → str.toList.head? = some 'q' →
        commander input stop (n + 2) k run
          = ([Ev.get_run run, Ev.printf "> ", Ev.fgets (some str), Ev.set_run 0, Ev.get_run 0],
              0, true))
      ∧ (∀ str, input k = some str → str.toList.head? = some 'h' →
        commander input stop (n + 1) k run
          = ([Ev.get_run run, Ev.printf "> ", Ev.fgets (some str), Ev.printf help_text]
              ++ (commander input stop n (k + 1) run).1, (commander input stop n (k + 1) run).2))
      ∧ (∀ str, input k = some str → str.toList.head? ≠ some 'h' →
          str.toList.head? ≠ some 'q' →
        commander input stop (n + 1) k run
          = ([Ev.get_run run, Ev.printf "> ", Ev.fgets (some str),
              Ev.eprintf ("# E: Unknown command (" ++ str.dropRight 1 ++ ")\n")]
              ++ (commander input stop n (k + 1) run).1,
              (commander input stop n (k + 1) run).2)) := by
  have hb_q : ∀ str : String, str.toList.head? = some 'q' → ∀ r : Int,
      commander_body (some str) r
        = ([Ev.printf "> ", Ev.fgets (some str), Ev.set_run 0], 0, false) := by
    intro str hq r
    unfold commander_body
    simp only [set_run]
    rw [if_neg (by rw [hq]; decide), if_pos hq]
    rfl
  have hb_h : ∀ str : String, str.toList.head? = some 'h' → ∀ r : Int,
      commander_body (some str) r
        = ([Ev.printf "> ", Ev.fgets (some str), Ev.printf help_text], r, false) := by
    intro str hh r
    unfold commander_body
    simp only [set_run]
    rw [if_pos hh]
    rfl
  have hb_o : ∀ str : String, str.toList.head? ≠ some 'h' → str.toList.head? ≠ some 'q' →
      ∀ r : Int, commander_body (some str) r
        = ([Ev.printf "> ", Ev.fgets (some str),
            Ev.eprintf ("# E: Unknown command (" ++ str.dropRight 1 ++ ")\n")], r, false) := by
    intro str hh hq r
    unfold commander_body
    simp only [set_run]
    rw [if_neg hh, if_neg hq]
    rfl
  refine ⟨?_, ?_, ?_, ?_⟩
  · intro h
    simp [commander, commander_body, get_run, set_run, hrun, hstop, h]
  · intro str h hq
    simp only [commander, get_run, hstop, h, hb_q str hq]
    simp [hrun]
  · intro str h hh
    simp only [commander, get_run, hstop, h, hb_h str hh]
    simp [hrun]
  · intro str h hh hq
    simp only [commander, get_run, hstop, h, hb_o str hh hq]
    simp [hrun]

/-- Witness for `commander_dispatch`: the input `x`, then end of input. -/
theorem commander_dispatch_witness :
    (commander (fun k => if k = 0 then some "x\n" else none) (fun _ => false) 2 0 1).1
      = [Ev.get_run 1, Ev.printf "> ", Ev.fgets (some "x\n"),
          Ev.eprintf "# E: Unknown command (x)\n", Ev.get_run 1, Ev.printf "> ", Ev.fgets none,
          Ev.eprintf "# E: Exit\n", Ev.set_run 0] := by
  have h := (commander_dispatch (fun k => if k = 0 then some "x\n" else none) (fun _ => false)
    1 0 1 (by decide) rfl).2.2.2 "x\n" rfl (by decide) (by decide)
  rw [h]
  decide

end Vac
